import Mathlib

/-!
Verification of the ResumeBeaver resume-analysis pipeline.

This file gives a shallow embedding, in Lean 4, of the pure text-processing
core of the repository:

* `ResumeAnalyzer` (src/resume_processor.py): skill extraction over
  category dictionaries, contact extraction, basic keyword extraction,
  the fallback match-score aggregation and the ATS score;
* `InfoExtractor` (src/tools/resume_info_extractor.py):
  `extract_skills_advanced` and `extract_contact_info`;
* `Optimize` (src/api/routers/optimize.py): skill extraction,
  years-of-experience extraction, `calculate_match_score` and
  `calculate_ats_score`.

Modelling conventions:

* Python strings are Lean `String`s (lists of characters); all the texts the
  program processes are treated through the same character predicates the
  Python `re` module uses on ASCII data (`\w` = alphanumeric or underscore,
  `\s` = blank characters, `\d` = decimal digits).
* Python regexes are embedded as explicit pattern matchers.  Word-boundary
  patterns `\b<term>\b` become `wordSearch`; the phone/email patterns become
  element sequences (`RElem`) interpreted by a backtracking matcher `runSeq`
  whose choice order reproduces the greedy, leftmost-match semantics of
  `re.search`/`re.findall`.
* Python floats are embedded as exact rationals; `round(x, 1)` becomes
  `round1`, rounding half away from zero instead of the float-dependent
  bankers rounding (all claims are stated modulo rounding).
* The one external numeric dependency, the TF-IDF cosine similarity used by
  the router for `keyword_match`, is an oracle parameter `keyword_match : ℚ`
  of the aggregation function (the sklearn call is out of scope; the code
  maps any failure of it to 0.0).
* Python dicts built key-by-key (contact info) are embedded as association
  lists built by the same conditional steps, so key-presence claims are
  meaningful.
-/

/-! ### Character classes (Python `re` on ASCII data) -/

/-- Python `\w` on ASCII: alphanumeric or underscore. -/
def isWordChar (c : Char) : Bool := c.isAlphanum || c == '_'

/-- Python `\s` on ASCII: the blank characters space, tab, newline, carriage
return, vertical tab and form feed. -/
def isSpaceChar (c : Char) : Bool :=
  c == ' ' || c == '\t' || c == '\n' || c == '\r' || c == '\x0b' || c == '\x0c'

/-- Python `str.lower()` character by character (ASCII case mapping).
`String.toLower` itself is avoided: its `mapAux` recursion does not reduce
in the kernel, while this list form does. -/
def lowerData (t : String) : List Char := t.data.map Char.toLower

def splitByAux (p : Char → Bool) : List Char → List Char → List (List Char)
  | [], acc => [acc.reverse]
  | c :: cs, acc =>
      if p c then acc.reverse :: splitByAux p cs [] else splitByAux p cs (c :: acc)

/-- Python `str.split(sep)` with a one-character separator class: split at
every separator, keeping empty pieces (so the piece count is always the
separator count plus one). -/
def splitBy (p : Char → Bool) (s : List Char) : List (List Char) :=
  splitByAux p s []

/-- Python `str.strip()`. -/
def stripData (s : List Char) : List Char :=
  ((s.dropWhile isSpaceChar).reverse.dropWhile isSpaceChar).reverse

/-- Whether the character at index `i` (if any) is a word character. -/
def wordAt (s : List Char) (i : Nat) : Bool :=
  match s[i]? with
  | some c => isWordChar c
  | none => false

/-- Python `\b` at position `i` of `s`: exactly one of the two adjacent
positions holds a word character. -/
def boundary (s : List Char) (i : Nat) : Bool :=
  ((decide (0 < i)) && wordAt s (i - 1)) != wordAt s i

/-! ### Literal/wildcard patterns (`\b<term>\b` searches) -/

/-- One element of a compiled term pattern: a literal character, or the
regex wildcard `.` (any character except newline). -/
inductive PatElem where
  | lit (c : Char)
  | any
deriving DecidableEq

def pmatch : PatElem → Char → Bool
  | .lit a, c => a == c
  | .any, c => !(c == '\n')

/-- Match a pattern against a prefix of `s`. -/
def matchAt : List PatElem → List Char → Bool
  | [], _ => true
  | _ :: _, [] => false
  | p :: ps, c :: cs => pmatch p c && matchAt ps cs

/-- `litHere ts u`: the characters `ts` are a prefix of `u`. -/
def litHere (ts u : List Char) : Bool := matchAt (ts.map .lit) u

/-- A match of `\b<pat>\b` starting at position `i`. -/
def wordHit (pat : List PatElem) (s : List Char) (i : Nat) : Bool :=
  boundary s i && matchAt pat (s.drop i) && boundary s (i + pat.length)

/-- `re.search(r'\b' + pat + r'\b', s)` succeeds: some position carries a
boundary-delimited match of `pat`. -/
def wordSearch (pat : List PatElem) (s : List Char) : Bool :=
  (List.range (s.length + 1)).any (wordHit pat s)

/-- Substring test: Python `needle in hay`. -/
def containsSub (needle hay : List Char) : Bool :=
  (List.range (hay.length + 1)).any (fun i => litHere needle (hay.drop i))

/-! ### Standalone occurrences (the specification's notion)

A term occurs "as a standalone whole word" at `i` when the text carries the
term's characters at `i` and the neighbouring characters on either side, when
they exist, are not word characters.  This is the claim-side notion against
which the word-boundary regexes are measured. -/

def sliceEq (ts s : List Char) (i : Nat) : Bool := (s.drop i).take ts.length == ts

def stdHit (ts s : List Char) (i : Nat) : Bool :=
  sliceEq ts s i && !((decide (0 < i)) && wordAt s (i - 1)) && !(wordAt s (i + ts.length))

def occursStandalone (ts s : List Char) : Bool :=
  (List.range (s.length + 1)).any (stdHit ts s)

/-- Case-insensitive standalone occurrence of term `t` in `text`. -/
def stdOccursCI (t text : String) : Bool :=
  occursStandalone (lowerData t) (lowerData text)

/-- First and last characters of the lowercased term are word characters. -/
def wordEnds (t : String) : Bool :=
  match lowerData t with
  | [] => false
  | a :: as => isWordChar a && isWordChar ((a :: as).getLastD a)

/-- Compile one skill entry of `ResumeAnalyzer.extract_skills`: the stored
strings contain regex escapes (`C\+\+`, `Node\.js`), which the code passes
through unchanged (`.replace('\\', '\\')` is the identity), so a backslash
escapes the next character and a bare `.` is the wildcard. -/
def parsePat : List Char → List PatElem
  | [] => []
  | '\\' :: c :: rest => .lit c :: parsePat rest
  | '.' :: rest => .any :: parsePat rest
  | c :: rest => .lit c :: parsePat rest

/-- Strip the regex escapes from a stored skill string: Python
`skill.replace('\\', '')`. -/
def cleanSkill (s : String) : String := ⟨s.data.filter (fun c => !(c == '\\'))⟩

/-! ### Character-class regex sequences (phone / email patterns)

The phone and email regexes are sequences of character-class elements with
quantifiers.  `runSeq` enumerates every way such a sequence can consume a
prefix of the input, listing the possible remainders in the greedy order the
Python engine explores them, so the head of the list is the match `re`
returns. -/

/-- The character classes occurring in the contact regexes. -/
inductive CC where
  | lit (c : Char)
  | digit
  | sepSp
  | dotDash
  | wsp
  | emailLocal
  | emailDomain
  | emailLocal2
  | emailDomain2
  | tld
  | wordDash
deriving DecidableEq

def ccMatch : CC → Char → Bool
  | .lit a, c => a == c
  | .digit, c => c.isDigit
  | .sepSp, c => c == '-' || c == '.' || isSpaceChar c
  | .dotDash, c => c == '-' || c == '.'
  | .wsp, c => isSpaceChar c
  | .emailLocal, c => isWordChar c || c == '.' || c == '%' || c == '+' || c == '-'
  | .emailDomain, c => isWordChar c || c == '.' || c == '-'
  | .emailLocal2, c => c.isAlphanum || c == '.' || c == '_' || c == '%' || c == '+' || c == '-'
  | .emailDomain2, c => c.isAlphanum || c == '.' || c == '-'
  | .tld, c => c.isUpper || c.isLower || c == '|'
  | .wordDash, c => isWordChar c || c == '-'

/-- One quantified element of a regex sequence. -/
inductive RElem where
  | one (cc : CC)
  | opt (cc : CC)
  | plus (cc : CC)
  | rep (cc : CC) (n : Nat)
  | repGE (cc : CC) (n : Nat)
  | star (cc : CC)
deriving DecidableEq

/-- All ways one element can consume a prefix, remainders listed in greedy
order (longest consumption first, an optional element consumed before
skipped). -/
def consume : RElem → List Char → List (List Char)
  | .one _, [] => []
  | .one cc, c :: cs => if ccMatch cc c then [cs] else []
  | .opt _, [] => [[]]
  | .opt cc, c :: cs => if ccMatch cc c then [cs, c :: cs] else [c :: cs]
  | .plus cc, s =>
      let m := (s.takeWhile (ccMatch cc)).length
      (List.range m).map (fun k => s.drop (m - k))
  | .rep cc n, s =>
      if n ≤ (s.takeWhile (ccMatch cc)).length then [s.drop n] else []
  | .repGE cc n, s =>
      let m := (s.takeWhile (ccMatch cc)).length
      if m < n then [] else (List.range (m - n + 1)).map (fun k => s.drop (m - k))
  | .star cc, s =>
      let m := (s.takeWhile (ccMatch cc)).length
      (List.range (m + 1)).map (fun k => s.drop (m - k))

/-- All ways a sequence of elements can consume a prefix, remainders in the
backtracking order of the Python engine. -/
def runSeq : List RElem → List Char → List (List Char)
  | [], s => [s]
  | e :: es, s => (consume e s).flatMap (fun r => runSeq es r)

/-- Remainders of a pattern given as ordered alternative sequences (used for
an optional group, expanded into with/without variants). -/
def matchChoice (alts : List (List RElem)) (s : List Char) : List (List Char) :=
  alts.flatMap (fun es => runSeq es s)

/-- `re.search` for an alternative pattern, with optional `\b` anchors at the
two ends: the first (leftmost) start position allowing a match, together
with the length of the match found there (the greedy one among those meeting
the trailing anchor).  Returns `(start, length)`. -/
def searchPatB (alts : List (List RElem)) (s : List Char) (bStart bEnd : Bool) :
    Option (Nat × Nat) :=
  (List.range (s.length + 1)).findSome? (fun i =>
    if bStart && !(boundary s i) then none
    else
      match ((matchChoice alts (s.drop i)).filter
          (fun r => !bEnd || boundary s (s.length - r.length))).head? with
      | some r => some (i, s.length - i - r.length)
      | none => none)

/-- The digit characters of the matched region `(start, length)` of `s`. -/
def matchDigits (s : List Char) (p : Nat × Nat) : List Char :=
  ((s.drop p.1).take p.2).filter Char.isDigit

/-- Minimum number of digit characters one element must consume. -/
def dmin : RElem → Nat
  | .one .digit => 1
  | .plus .digit => 1
  | .rep .digit n => n
  | .repGE .digit n => n
  | _ => 0

/-- Minimum number of digit characters a sequence must consume. -/
def dminSeq (es : List RElem) : Nat := (es.map dmin).sum

/-! ### Shared numeric conventions -/

/-- Python `round(x, 1)` on the embedded rationals. -/
def round1 (x : ℚ) : ℚ := ((round (10 * x) : ℤ) : ℚ) / 10

/-- Value of a digit string, Python `int`. -/
def natOfDigits (ds : List Char) : Nat :=
  ds.foldl (fun n c => 10 * n + (c.toNat - 48)) 0

/-- Python `"({0}) {1}-{2}".format` layout of the last ten digits:
`(XXX) XXX-XXXX`. -/
def formatPhone (ds : List Char) : String :=
  let d10 := ds.drop (ds.length - 10)
  "(" ++ (⟨d10.take 3⟩ : String) ++ ") " ++ (⟨(d10.drop 3).take 3⟩ : String)
    ++ "-" ++ (⟨d10.drop 6⟩ : String)

/-! ### The three phone regexes of `ResumeAnalyzer.extract_contact`

`r'(\+?1[-.\s]?)?\(?(\d{3})\)?[-.\s]?(\d{3})[-.\s]?(\d{4})'` (the optional
country-code group expanded into its two alternatives, tried with the group
present first as the engine does), `r'(\d{3})[-.](\d{3})[-.](\d{4})'` and
`r'\(?(\d{3})\)?\s*(\d{3})[-.](\d{4})'`. -/

def phoneCore1 : List RElem :=
  [.opt (.lit '('), .rep .digit 3, .opt (.lit ')'), .opt .sepSp,
   .rep .digit 3, .opt .sepSp, .rep .digit 4]

def phonePat1 : List (List RElem) :=
  [[.opt (.lit '+'), .one (.lit '1'), .opt .sepSp] ++ phoneCore1, phoneCore1]

def phonePat2 : List (List RElem) :=
  [[.rep .digit 3, .one .dotDash, .rep .digit 3, .one .dotDash, .rep .digit 4]]

def phonePat3 : List (List RElem) :=
  [[.opt (.lit '('), .rep .digit 3, .opt (.lit ')'), .star .wsp,
    .rep .digit 3, .one .dotDash, .rep .digit 4]]

def rpPhonePatterns : List (List (List RElem)) := [phonePat1, phonePat2, phonePat3]

/-- The first (in pattern order, then leftmost) phone match of the three
patterns, as the digit characters of the whole match (`group(0)`). -/
def rpPhoneSearch (s : List Char) : Option (List Char) :=
  rpPhonePatterns.findSome? (fun alts =>
    (searchPatB alts s false false).map (matchDigits s))

/-- The loop of `extract_contact`: for each pattern in order, search; on a
match whose digits number at least 10, format and stop, otherwise move to
the next pattern. -/
def rpPhoneLoop : List (List (List RElem)) → List Char → Option String
  | [], _ => none
  | alts :: rest, s =>
      match searchPatB alts s false false with
      | some p =>
          let ds := matchDigits s p
          if 10 ≤ ds.length then some (formatPhone ds) else rpPhoneLoop rest s
      | none => rpPhoneLoop rest s

/-! ### Email / handle regexes -/

/-- `\b[\w._%+-]+@[\w.-]+\.[A-Z|a-z]{2,}\b` (resume_processor). -/
def emailPatRP : List (List RElem) :=
  [[.plus .emailLocal, .one (.lit '@'), .plus .emailDomain, .one (.lit '.'),
    .repGE .tld 2]]

/-- `\b[A-Za-z0-9._%+-]+@[A-Za-z0-9.-]+\.[A-Z|a-z]{2,}\b` (extractor and
router). -/
def emailPatX : List (List RElem) :=
  [[.plus .emailLocal2, .one (.lit '@'), .plus .emailDomain2, .one (.lit '.'),
    .repGE .tld 2]]

/-- `\b\d{3}[-.]?\d{3}[-.]?\d{4}\b` (router ATS check). -/
def phonePatRouter : List (List RElem) :=
  [[.rep .digit 3, .opt .dotDash, .rep .digit 3, .opt .dotDash, .rep .digit 4]]

/-- The matched substring of a `searchPatB` result. -/
def matchedText (s : List Char) (p : Nat × Nat) : List Char := (s.drop p.1).take p.2

/-- Handle search: literal prefix (matched case-insensitively) followed by a
nonempty maximal `[\w-]+` run; returns the run taken from `orig` (the text in
the casing the value is read from).  Lowercase comparison is done on `low`.
Mirrors `re.search(r'<prefix>([\w-]+)', text)`. -/
def handleSearch (pfx : List Char) (low orig : List Char) : Option (List Char) :=
  (List.range (low.length + 1)).findSome? (fun i =>
    if litHere pfx (low.drop i) then
      let h := (orig.drop (i + pfx.length)).takeWhile (fun c => isWordChar c || c == '-')
      if h.isEmpty then none else some h
    else none)

/-! ## `ResumeAnalyzer` (src/resume_processor.py) -/

namespace ResumeAnalyzer

/-- `skill_patterns['languages']`, escapes as stored in the source. -/
def languages : List String :=
  ["Python", "JavaScript", "TypeScript", "Java", "C\\+\\+", "C#",
   "Ruby", "Go", "Rust", "Swift", "Kotlin", "PHP", "R", "Scala",
   "HTML", "CSS", "SQL", "NoSQL", "GraphQL", "C", "Perl", "Shell"]

def frameworks : List String :=
  ["React", "Angular", "Vue", "Django", "Flask", "FastAPI", "Spring",
   "Express", "Node\\.js", "Rails", "Laravel", ".NET", "Next\\.js",
   "Bootstrap", "Tailwind", "jQuery", "Svelte", "Nuxt", "Gatsby"]

def databases : List String :=
  ["MySQL", "PostgreSQL", "MongoDB", "Redis", "SQLite", "Oracle",
   "DynamoDB", "Cassandra", "ElasticSearch", "Neo4j", "Firebase",
   "MariaDB", "CouchDB", "InfluxDB"]

def cloud : List String :=
  ["AWS", "Azure", "GCP", "Google Cloud", "Docker", "Kubernetes",
   "Terraform", "CloudFormation", "Heroku", "DigitalOcean",
   "Vercel", "Netlify", "Firebase"]

def tools : List String :=
  ["Git", "GitHub", "GitLab", "Jenkins", "CI/CD", "JIRA", "Slack",
   "VS Code", "IntelliJ", "Postman", "Swagger", "GraphQL", "REST",
   "Figma", "Adobe", "Photoshop", "Sketch"]

/-- All stored entries, category order as in the source. -/
def allEntries : List String := languages ++ frameworks ++ databases ++ cloud ++ tools

/-- One entry is found: `re.search(r'\b' + skill.lower() + r'\b', text.lower())`. -/
def rpFound (skill text : String) : Bool :=
  wordSearch (parsePat (lowerData skill)) (lowerData text)

/-- The matched entries of one category, as cleaned labels, before the
`list(set(...))` deduplication. -/
def catRaw (cat : List String) (text : String) : List String :=
  (cat.filter (fun sk => rpFound sk text)).map cleanSkill

/-- Result shape of `extract_skills` (the five categories and `'all'`). -/
structure RPSkills where
  languages : List String
  frameworks : List String
  databases : List String
  cloud : List String
  tools : List String
  all : List String
deriving DecidableEq

/-- `ResumeAnalyzer.extract_skills`: per-category whole-word matching of the
lowercased entry against the lowercased text; matched entries are appended
(escapes stripped) to the category and to `'all'`; every list is then
deduplicated (`list(set(...))`, order-insensitive — embedded as `dedup`). -/
def extract_skills (text : String) : RPSkills :=
  let l := catRaw languages text
  let f := catRaw frameworks text
  let d := catRaw databases text
  let c := catRaw cloud text
  let t := catRaw tools text
  { languages := l.dedup, frameworks := f.dedup, databases := d.dedup,
    cloud := c.dedup, tools := t.dedup,
    all := (l ++ f ++ d ++ c ++ t).dedup }

/-- Email of `extract_contact`: first match of the email regex. -/
def rpEmail (text : String) : Option String :=
  (searchPatB emailPatRP text.data true true).map
    (fun p => (⟨matchedText text.data p⟩ : String))

/-- LinkedIn of `extract_contact`: `linkedin.com/in/([\w-]+)`, case-insensitive
search, handle read from the original text, rewritten to a canonical URL. -/
def rpLinkedin (text : String) : Option String :=
  (handleSearch "linkedin.com/in/".data (lowerData text) text.data).map
    (fun h => "https://linkedin.com/in/" ++ (⟨h⟩ : String))

/-- GitHub of `extract_contact`: `github.com/([\w-]+)`. -/
def rpGithub (text : String) : Option String :=
  (handleSearch "github.com/".data (lowerData text) text.data).map
    (fun h => "https://github.com/" ++ (⟨h⟩ : String))

/-- `ResumeAnalyzer.extract_contact`, the Python dict embedded as an
association list built by the same steps: email set unconditionally; phone
set inside the pattern loop only when a match with at least 10 digits is
found, then backfilled with `None` when the key is still absent; linkedin
and github set unconditionally. -/
def extract_contact (text : String) : List (String × Option String) :=
  let c := [("email", rpEmail text)]
  let c := match rpPhoneLoop rpPhonePatterns text.data with
           | some p => c ++ [("phone", some p)]
           | none => c
  let c := if (c.lookup "phone").isSome then c
           else c ++ [("phone", (none : Option String))]
  c ++ [("linkedin", rpLinkedin text), ("github", rpGithub text)]

/-- Stop words of `_extract_keywords_basic`. -/
def stop_words : List String :=
  ["a", "an", "and", "are", "as", "at", "be", "by", "for", "from",
   "has", "he", "in", "is", "it", "its", "of", "on", "that", "the",
   "to", "was", "will", "with", "have", "had", "this", "they", "been",
   "their", "said", "each", "which", "she", "do", "how", "her",
   "or", "but", "what", "there", "we", "you", "all", "any", "can",
   "would", "could", "should", "may", "might", "must", "shall",
   "am", "pm", "inc", "llc", "corp", "ltd", "co", "company"]

/-- A token of `re.findall(r'\b[a-zA-Z]{3,}\b', s)` starting at `i`: a
maximal alphabetic run of length at least 3 whose neighbours (when they
exist) are not word characters. -/
def tokenAt (s : List Char) (i : Nat) : Option (List Char) :=
  let run := (s.drop i).takeWhile Char.isAlpha
  if !((decide (0 < i)) && wordAt s (i - 1)) && decide (3 ≤ run.length)
      && !(wordAt s (i + run.length)) then some run else none

/-- `_extract_keywords_basic`: the word tokens of the lowercased text, minus
stop words (the redundant `len(word) > 2` check kept), as a set. -/
def keywordsBasic (text : String) : List String :=
  let s := lowerData text
  let words := ((List.range (s.length + 1)).filterMap (tokenAt s)).map
    (fun l => (⟨l⟩ : String))
  (words.filter (fun w => !(stop_words.contains w) && decide (2 < w.length))).dedup

/-- Python `text.lower().split()`: whitespace-separated words. -/
def splitWords (text : String) : List String :=
  ((splitBy isSpaceChar (lowerData text)).map (fun l => ((⟨l⟩ : String)))).filter
    (fun w => !(w == ""))

/-- Result shape of `ResumeAnalyzer.calculate_match_score`. -/
structure RPMatch where
  overall_score : ℚ
  semantic_match : ℚ
  skill_match : ℚ
  keyword_match : ℚ
  missing_skills : List String
  matching_skills : List String
  recommendation : String

def _get_recommendation (score : ℚ) : String :=
  if 8/10 ≤ score then "Excellent match - minor tweaks recommended"
  else if 6/10 ≤ score then "Good match - add missing skills and keywords"
  else if 4/10 ≤ score then "Fair match - significant improvements needed"
  else "Poor match - major changes required"

/-- `ResumeAnalyzer.calculate_match_score` (the no-embedding fallback path):
skill coverage, basic keyword coverage and raw word overlap, each a guarded
ratio over the job text's set, combined `0.5/0.3/0.2`. -/
def calculate_match_score (resume job_desc : String) : RPMatch :=
  let resume_skills := (extract_skills resume).all
  let job_skills := (extract_skills job_desc).all
  let skill_coverage : ℚ :=
    if job_skills.isEmpty then 0
    else ((job_skills.filter (fun sk => resume_skills.contains sk)).length : ℚ)
          / (job_skills.length : ℚ)
  let missing_skills : List String :=
    if job_skills.isEmpty then []
    else job_skills.filter (fun sk => !(resume_skills.contains sk))
  let resume_keywords := keywordsBasic resume
  let job_keywords := keywordsBasic job_desc
  let keyword_coverage : ℚ :=
    if job_keywords.isEmpty then 0
    else ((job_keywords.filter (fun w => resume_keywords.contains w)).length : ℚ)
          / (job_keywords.length : ℚ)
  let resume_words := (splitWords resume).dedup
  let job_words := (splitWords job_desc).dedup
  let word_overlap : ℚ :=
    if job_words.isEmpty then 0
    else ((job_words.filter (fun w => resume_words.contains w)).length : ℚ)
          / (job_words.length : ℚ)
  let overall_score := skill_coverage * (5/10) + keyword_coverage * (3/10)
    + word_overlap * (2/10)
  { overall_score := round1 (overall_score * 100),
    semantic_match := round1 (word_overlap * 100),
    skill_match := round1 (skill_coverage * 100),
    keyword_match := round1 (keyword_coverage * 100),
    missing_skills := missing_skills.take 10,
    matching_skills := resume_skills.filter (fun sk => job_skills.contains sk),
    recommendation := _get_recommendation overall_score }

end ResumeAnalyzer

namespace ResumeAnalyzer

/-- Section names scanned (as substrings) by `_calculate_ats_score`. -/
def ats_sections : List String :=
  ["experience", "education", "skills", "summary", "work", "employment"]

/-- The glyph list of `_calculate_ats_score` (the source lists `'→'` twice). -/
def problematic_chars : List Char :=
  ['•', '→', '★', '◆', '▪', '✓', '✗', '→', '←', '↑', '↓']

/-- Result shape of `_calculate_ats_score`. -/
structure AtsResult where
  score : ℤ
  issues : List String
  recommendations : List String
deriving DecidableEq

/-- `_get_ats_recommendations`: one recommendation per recognized issue
string (two are recognized by substring). -/
def _get_ats_recommendations (issues : List String) : List String :=
  (if issues.contains "Missing standard section headers"
    then ["Add clear section headers: Experience, Education, Skills"] else [])
  ++ (if issues.contains "No email address found"
    then ["Include your email address at the top"] else [])
  ++ (if issues.contains "No phone number found"
    then ["Add a phone number in standard format"] else [])
  ++ (if issues.any (fun iss => containsSub "special characters".data iss.data)
    then ["Replace bullet points with standard dashes (-) or asterisks (*)"] else [])
  ++ (if issues.any (fun iss => containsSub "line breaks".data iss.data)
    then ["Use proper paragraph formatting with clear sections"] else [])

/-- `_calculate_ats_score`, deductions applied in source order; the line
check is Python `len(text.split('\n')) < 5`. -/
def _calculate_ats_score (text : String) : AtsResult :=
  let score : ℤ := 100
  let issues : List String := []
  let found_sections :=
    (ats_sections.filter (fun sec => containsSub sec.data (lowerData text))).length
  let score := if found_sections < 2 then score - 20 else score
  let issues := if found_sections < 2
    then issues ++ ["Missing standard section headers"] else issues
  let contact := extract_contact text
  let score := if ((contact.lookup "email").join).isNone then score - 15 else score
  let issues := if ((contact.lookup "email").join).isNone
    then issues ++ ["No email address found"] else issues
  let score := if ((contact.lookup "phone").join).isNone then score - 10 else score
  let issues := if ((contact.lookup "phone").join).isNone
    then issues ++ ["No phone number found"] else issues
  let hasGlyph := problematic_chars.any (fun c => text.data.contains c)
  let score := if hasGlyph then score - 10 else score
  let issues := if hasGlyph
    then issues ++ ["Contains special characters that may confuse ATS"] else issues
  let fewLines := (splitBy (fun c => c == '\n') text.data).length < 5
  let score := if fewLines then score - 15 else score
  let issues := if fewLines
    then issues ++ ["Document appears to lack proper line breaks"] else issues
  { score := max score 0, issues := issues,
    recommendations := _get_ats_recommendations issues }

end ResumeAnalyzer

/-! ## `InfoExtractor` (src/tools/resume_info_extractor.py) -/

namespace InfoExtractor

def prog_languages : List String :=
  ["Python", "JavaScript", "Java", "C++", "C#", "PHP", "Ruby", "Go", "Rust",
   "Swift", "Kotlin", "TypeScript", "HTML", "CSS", "SQL"]

def frameworks : List String :=
  ["React", "Angular", "Vue", "Django", "Flask", "FastAPI", "Spring", "Laravel",
   "Express", "Node.js", "Bootstrap", "jQuery", "pandas", "NumPy"]

def databases : List String :=
  ["MySQL", "PostgreSQL", "MongoDB", "Redis", "SQLite", "Oracle"]

def cloud_platforms : List String :=
  ["AWS", "Azure", "Google Cloud", "GCP", "Docker", "Kubernetes"]

def tools : List String :=
  ["Git", "Jenkins", "JIRA", "VS Code", "Postman"]

def soft_skills : List String :=
  ["Leadership", "Communication", "Teamwork", "Problem Solving"]

/-- The five technical dictionaries, in the order `all_technical` unions
them. -/
def techEntries : List String :=
  prog_languages ++ frameworks ++ databases ++ cloud_platforms ++ tools

/-- One entry is found: `re.search(r'\b' + re.escape(skill.lower()) + r'\b',
text.lower())` — `re.escape` makes every character literal. -/
def xFound (skill text : String) : Bool :=
  wordSearch ((lowerData skill).map PatElem.lit) (lowerData text)

def catRaw (cat : List String) (text : String) : List String :=
  cat.filter (fun sk => xFound sk text)

/-- Result shape of `extract_skills_advanced`. -/
structure AdvSkills where
  programming_languages : List String
  frameworks_libraries : List String
  databases : List String
  cloud_platforms : List String
  tools : List String
  soft_skills : List String
  all_technical : List String
deriving DecidableEq

/-- `extract_skills_advanced`: categories filled by whole-word matching,
`all_technical` the concatenation of the five technical categories, then
every list deduplicated (`list(set(...))`). -/
def extract_skills_advanced (text : String) : AdvSkills :=
  let pl := catRaw prog_languages text
  let fw := catRaw frameworks text
  let db := catRaw databases text
  let cp := catRaw cloud_platforms text
  let tl := catRaw tools text
  let ss := catRaw soft_skills text
  { programming_languages := pl.dedup, frameworks_libraries := fw.dedup,
    databases := db.dedup, cloud_platforms := cp.dedup, tools := tl.dedup,
    soft_skills := ss.dedup,
    all_technical := (pl ++ fw ++ db ++ cp ++ tl).dedup }

/-- One optional one-character element `X?` whose class is disjoint from
every character the following element can start on, so greedy consumption
without backtracking is exact. -/
def optC (p : Char → Bool) (t : List Char) : List Char :=
  match t with
  | c :: cs => if p c then cs else t
  | [] => t

/-- A `(\d{3})` group: exactly three digit characters. -/
def take3Digits : List Char → Option (List Char × List Char)
  | a :: b :: c :: rest =>
      if a.isDigit && b.isDigit && c.isDigit then some ([a, b, c], rest) else none
  | _ => none

/-- A `(\d{4})` group. -/
def take4Digits : List Char → Option (List Char × List Char)
  | a :: b :: c :: d :: rest =>
      if a.isDigit && b.isDigit && c.isDigit && d.isDigit
      then some ([a, b, c, d], rest) else none
  | _ => none

/-- The core `\(?(\d{3})\)?[-.\s]?(\d{3})[-.\s]?(\d{4})` of the
extractor's first phone pattern at one position, as the three digit groups
joined.  Each optional element's class (`(`, `)`, separator) contains no
`(` and no digit, the only characters the next element accepts, so the
greedy parse is the regex parse. -/
def xP1Core (t : List Char) : Option (List Char) :=
  (take3Digits (optC (fun c => c == '(') t)).bind (fun p2 =>
    (take3Digits (optC (ccMatch .sepSp) (optC (fun c => c == ')') p2.2))).bind
      (fun p3 =>
        (take4Digits (optC (ccMatch .sepSp) p3.2)).map (fun p4 =>
          p2.1 ++ p3.1 ++ p4.1)))

/-- The extractor's first phone pattern
`(\+?1[-.\s]?)?\(?(\d{3})\)?[-.\s]?(\d{3})[-.\s]?(\d{4})` at one
position, returning the digits the code joins from the groups of the
`findall` tuple: a group string is kept only when it is entirely digits
(`d.isdigit()`), so the optional country-code group contributes its `1`
only when it matched the bare `1` — a `+1` or `1-` group is dropped whole.
The engine's intermediate backtrack levels (country group kept but its
trailing separator given back, or the core started on a `+` or separator
character) always fail, because the core must begin with `(` or a digit;
the remaining alternatives are group-present (tried first, greedily) and
group-absent. -/
def xP1Prefix : List Char → Option (List Char)
  | '+' :: '1' :: rest => xP1Core (optC (ccMatch .sepSp) rest)
  | '1' :: c :: cs =>
      if ccMatch .sepSp c then xP1Core cs
      else (xP1Core (c :: cs)).map (fun ds => '1' :: ds)
  | ['1'] => (xP1Core []).map (fun ds => '1' :: ds)
  | _ => none

def xP1At (t : List Char) : Option (List Char) :=
  match xP1Prefix t with
  | some ds => some ds
  | none => xP1Core t

/-- One mandatory literal separator character. -/
def sepLit (sep : Char) : List Char → Option (List Char)
  | c :: cs => if c == sep then some cs else none
  | [] => none

/-- `(\d{3})S(\d{3})S(\d{4})` for a literal separator character `S`
(`.` in the extractor's second pattern, `-` in its third): the groups
joined. -/
def xPSepAt (sep : Char) (t : List Char) : Option (List Char) :=
  (take3Digits t).bind (fun p1 =>
    (sepLit sep p1.2).bind (fun t2 =>
      (take3Digits t2).bind (fun p2 =>
        (sepLit sep p2.2).bind (fun t3 =>
          (take4Digits t3).map (fun p3 => p1.1 ++ p2.1 ++ p3.1)))))

/-- The extractor's three phone matchers, in source order. -/
def xPhoneMatchers : List (List Char → Option (List Char)) :=
  [xP1At, xPSepAt '.', xPSepAt '-']

/-- Leftmost match of one matcher: `re.findall(pattern, text)[0]`. -/
def xSearch (m : List Char → Option (List Char)) (s : List Char) :
    Option (List Char) :=
  (List.range (s.length + 1)).findSome? (fun i => m (s.drop i))

/-- The extractor's phone loop: for each pattern in order, take the first
match's group digits; when they number at least 10, format and stop,
otherwise try the next pattern; `phone_found` stays `None` otherwise. -/
def xPhoneLoop : List (List Char → Option (List Char)) → List Char → Option String
  | [], _ => none
  | m :: rest, s =>
      match xSearch m s with
      | some ds =>
          if 10 ≤ ds.length then some (formatPhone ds) else xPhoneLoop rest s
      | none => xPhoneLoop rest s

/-- The first pattern (in source order) with a match: its group digits,
with no length guard — the specification-side search. -/
def xPhoneSearch (s : List Char) : Option (List Char) :=
  xPhoneMatchers.findSome? (fun m => xSearch m s)

def xPhone (s : List Char) : Option String := xPhoneLoop xPhoneMatchers s

/-- First email match (`re.findall(...)[0]`), read from the original text. -/
def xEmail (text : String) : Option String :=
  (searchPatB emailPatX text.data true true).map
    (fun p => (⟨matchedText text.data p⟩ : String))

/-- LinkedIn: `re.findall(r'linkedin\.com/in/[\w-]+', text.lower())`, first
match prefixed with `https://`. -/
def xLinkedin (text : String) : Option String :=
  (handleSearch "linkedin.com/in/".data (lowerData text) (lowerData text)).map
    (fun h => "https://linkedin.com/in/" ++ (⟨h⟩ : String))

def xGithub (text : String) : Option String :=
  (handleSearch "github.com/".data (lowerData text) (lowerData text)).map
    (fun h => "https://github.com/" ++ (⟨h⟩ : String))

/-- The name heuristic: among the first three nonempty stripped lines, the
first that contains none of the flag words, has at most 4 space-separated
parts and strictly more than 5 characters. -/
def xName (text : String) : Option String :=
  Option.map (fun l => ((⟨l⟩ : String))) <|
  let lines := ((splitBy (fun c => c == '\n') text.data).map stripData).filter
    (fun l => !(l.isEmpty))
  (lines.take 3).find? (fun l =>
    !(["engineer", "developer", "@", "phone", "email"].any
        (fun kw => containsSub kw.data (l.map Char.toLower)))
    && decide (((splitBy isSpaceChar l).filter (fun w => !(w.isEmpty))).length ≤ 4)
    && decide (5 < l.length))

/-- `extract_contact_info`: every key assigned unconditionally (phone via an
intermediate variable that stays `None` when no pattern yields 10 digits). -/
def extract_contact_info (text : String) : List (String × Option String) :=
  [("email", xEmail text),
   ("phone", xPhone text.data),
   ("linkedin", xLinkedin text),
   ("github", xGithub text),
   ("name", xName text)]

end InfoExtractor

/-! ## `Optimize` (src/api/routers/optimize.py) -/

namespace Optimize

/-- The six alternation patterns of the router's `extract_skills`, flattened
into their term lists (order preserved; every character is literal in the
source pattern). -/
def skillTerms : List String :=
  ["Python", "JavaScript", "Java", "C++", "C#", "React", "Vue", "Angular",
   "Node.js", "PHP", "Ruby", "Go", "Rust", "Swift", "Kotlin", "TypeScript",
   "Django", "Flask", "FastAPI", "Express", "Spring", "Laravel", "Rails",
   "TensorFlow", "PyTorch", "Pandas", "NumPy", "jQuery", "Bootstrap",
   "MySQL", "PostgreSQL", "MongoDB", "Redis", "SQLite", "Oracle",
   "SQL Server", "DynamoDB", "Cassandra",
   "AWS", "Azure", "GCP", "Docker", "Kubernetes", "Jenkins", "Git", "GitHub",
   "GitLab", "CI/CD", "Terraform", "Ansible",
   "REST", "API", "GraphQL", "JSON", "XML", "HTML", "CSS", "SASS", "Linux",
   "Windows", "macOS", "Figma", "Sketch",
   "Machine Learning", "ML", "AI", "Data Science", "Analytics", "Tableau",
   "Power BI", "Excel", "R", "Stata"]

/-- The router's `extract_skills`: whole-word alternation matches collected
as a lowercase set.  (`re.findall` consumes matches left to right; on these
term lists — longer alternatives listed before their prefixes, no two terms
with overlapping standalone occurrences — that is equivalent to the per-term
whole-word search used here.) -/
def extract_skills (text : String) : List String :=
  ((skillTerms.filter (fun t =>
      wordSearch ((lowerData t).map PatElem.lit) (lowerData text))).map
    (fun t => ((⟨lowerData t⟩ : String)))).dedup

/-- Pattern 1 of `extract_experience_years` at start `i` of the lowercased
text: `(\d+)\+?\s+years?\s+(?:of\s+)?experience`. -/
def expP1At (s : List Char) (i : Nat) : Option Nat :=
  let t := s.drop i
  let ds := t.takeWhile Char.isDigit
  if ds.isEmpty then none else
  let t := t.drop ds.length
  let t := if t.head? = some '+' then t.drop 1 else t
  let w := t.takeWhile isSpaceChar
  if w.isEmpty then none else
  let t := t.drop w.length
  if litHere "year".data t then
    let t := t.drop 4
    let t := if t.head? = some 's' then t.drop 1 else t
    let w2 := t.takeWhile isSpaceChar
    if w2.isEmpty then none else
    let t := t.drop w2.length
    if (litHere "of".data t
          && (let t2 := (t.drop 2)
              let w3 := t2.takeWhile isSpaceChar
              !w3.isEmpty && litHere "experience".data (t2.drop w3.length)))
        || litHere "experience".data t
    then some (natOfDigits ds) else none
  else none

/-- Pattern 2: `(\d+)\+?\s+years?\s+(?:in|with)`. -/
def expP2At (s : List Char) (i : Nat) : Option Nat :=
  let t := s.drop i
  let ds := t.takeWhile Char.isDigit
  if ds.isEmpty then none else
  let t := t.drop ds.length
  let t := if t.head? = some '+' then t.drop 1 else t
  let w := t.takeWhile isSpaceChar
  if w.isEmpty then none else
  let t := t.drop w.length
  if litHere "year".data t then
    let t := t.drop 4
    let t := if t.head? = some 's' then t.drop 1 else t
    let w2 := t.takeWhile isSpaceChar
    if w2.isEmpty then none else
    let t := t.drop w2.length
    if litHere "in".data t || litHere "with".data t
    then some (natOfDigits ds) else none
  else none

/-- The tail of pattern 3 after the lazy gap: `(\d+)\+?\s+years?`. -/
def expP3Tail (u : List Char) : Option Nat :=
  let ds := u.takeWhile Char.isDigit
  if ds.isEmpty then none else
  let t := u.drop ds.length
  let t := if t.head? = some '+' then t.drop 1 else t
  let w := t.takeWhile isSpaceChar
  if w.isEmpty then none else
  if litHere "year".data (t.drop w.length) then some (natOfDigits ds) else none

/-- Pattern 3: `experience.*?(\d+)\+?\s+years?` — the lazy gap grows one
character at a time and may not cross a newline. -/
def expP3At (s : List Char) (i : Nat) : Option Nat :=
  if litHere "experience".data (s.drop i) then
    let rest := s.drop (i + 10)
    (List.range (rest.length + 1)).findSome? (fun g =>
      if (rest.take g).contains '\n' then none else expP3Tail (rest.drop g))
  else none

/-- `extract_experience_years`: the three patterns tried in order, each by a
leftmost search on the (case-insensitively matched) text; the first match's
digit group, as an integer. -/
def extract_experience_years (text : String) : Option Nat :=
  let s := lowerData text
  match (List.range (s.length + 1)).findSome? (expP1At s) with
  | some n => some n
  | none =>
    match (List.range (s.length + 1)).findSome? (expP2At s) with
    | some n => some n
    | none => (List.range (s.length + 1)).findSome? (expP3At s)

def education_keywords : List String :=
  ["bachelor", "master", "phd", "degree", "university", "college"]

/-- `sum(1 for keyword in education_keywords if keyword in text.lower())`. -/
def eduCount (text : String) : Nat :=
  (education_keywords.filter (fun k => containsSub k.data (lowerData text))).length

/-- The `MatchScore` response model (fields on the 0–100 scale, one
decimal). -/
structure MatchScore where
  overall_score : ℚ
  skill_match_score : ℚ
  keyword_match_score : ℚ
  experience_match_score : ℚ
  education_match_score : ℚ
deriving DecidableEq

/-- `calculate_match_score`.  `keyword_match` stands for the TF-IDF cosine
similarity `calculate_text_similarity(resume, job_desc)` computed by
sklearn (an external library; the code returns 0.0 on any failure of it). -/
def calculate_match_score (resume job_desc : String) (keyword_match : ℚ) :
    MatchScore :=
  let resume_skills := extract_skills resume
  let job_skills := extract_skills job_desc
  let skill_match : ℚ :=
    if job_skills.isEmpty then 0
    else ((job_skills.filter (fun sk => resume_skills.contains sk)).length : ℚ)
      / (job_skills.length : ℚ)
  let resume_exp := extract_experience_years resume
  let job_exp := extract_experience_years job_desc
  let experience_match : ℚ :=
    match resume_exp, job_exp with
    | some r, some j =>
        if r ≠ 0 ∧ j ≠ 0 then (if j ≤ r then 1 else (r : ℚ) / (j : ℚ))
        else 1/2
    | _, _ => 1/2
  let resume_education := eduCount resume
  let job_education := eduCount job_desc
  let education_match : ℚ :=
    if 0 < job_education
    then min ((resume_education : ℚ) / (job_education : ℚ)) 1 else 1
  let overall := skill_match * (4/10) + keyword_match * (3/10)
    + experience_match * (2/10) + education_match * (1/10)
  { overall_score := round1 (overall * 100),
    skill_match_score := round1 (skill_match * 100),
    keyword_match_score := round1 (keyword_match * 100),
    experience_match_score := round1 (experience_match * 100),
    education_match_score := round1 (education_match * 100) }

def standard_headers : List String :=
  ["experience", "education", "skills", "summary", "objective"]

def router_problematic_chars : List Char := ['•', '→', '★', '◆']

/-- `calculate_ats_score` of the router: scores on 100, deductions 20/15/10/5,
no line-break check; returns the floored score and the recommendations. -/
def calculate_ats_score (resume : String) : ℤ × List String :=
  let score : ℤ := 100
  let recommendations : List String := []
  let found_headers :=
    (standard_headers.filter (fun h => containsSub h.data (lowerData resume))).length
  let score := if found_headers < 3 then score - 20 else score
  let recommendations := if found_headers < 3
    then recommendations
      ++ ["Use standard section headers like 'Experience', 'Education', 'Skills'"]
    else recommendations
  let noEmail := (searchPatB emailPatX resume.data true true).isNone
  let score := if noEmail then score - 15 else score
  let recommendations := if noEmail
    then recommendations ++ ["Include a professional email address"]
    else recommendations
  let noPhone := (searchPatB phonePatRouter resume.data true true).isNone
  let score := if noPhone then score - 10 else score
  let recommendations := if noPhone
    then recommendations ++ ["Include a phone number"] else recommendations
  let hasGlyph := router_problematic_chars.any (fun c => resume.data.contains c)
  let score := if hasGlyph then score - 5 else score
  let recommendations := if hasGlyph
    then recommendations ++ ["Replace special characters with standard punctuation"]
    else recommendations
  (max score 0, recommendations)

end Optimize

/-! ### Named sub-scores (the locals of the two aggregation functions) -/

namespace Optimize

/-- The `skill_match` local of `calculate_match_score`. -/
def skillMatchOf (resume job_desc : String) : ℚ :=
  let resume_skills := extract_skills resume
  let job_skills := extract_skills job_desc
  if job_skills.isEmpty then 0
  else ((job_skills.filter (fun sk => resume_skills.contains sk)).length : ℚ)
    / (job_skills.length : ℚ)

/-- The `experience_match` local of `calculate_match_score`. -/
def experienceMatchOf (resume job_desc : String) : ℚ :=
  match extract_experience_years resume, extract_experience_years job_desc with
  | some r, some j =>
      if r ≠ 0 ∧ j ≠ 0 then (if j ≤ r then 1 else (r : ℚ) / (j : ℚ)) else 1/2
  | _, _ => 1/2

/-- The `education_match` local of `calculate_match_score`. -/
def educationMatchOf (resume job_desc : String) : ℚ :=
  if 0 < eduCount job_desc
  then min ((eduCount resume : ℚ) / (eduCount job_desc : ℚ)) 1 else 1

end Optimize

namespace ResumeAnalyzer

/-- The `skill_coverage` local of the fallback `calculate_match_score`. -/
def skillCoverageOf (resume job_desc : String) : ℚ :=
  let resume_skills := (extract_skills resume).all
  let job_skills := (extract_skills job_desc).all
  if job_skills.isEmpty then 0
  else ((job_skills.filter (fun sk => resume_skills.contains sk)).length : ℚ)
    / (job_skills.length : ℚ)

/-- The `keyword_coverage` local. -/
def keywordCoverageOf (resume job_desc : String) : ℚ :=
  let resume_keywords := keywordsBasic resume
  let job_keywords := keywordsBasic job_desc
  if job_keywords.isEmpty then 0
  else ((job_keywords.filter (fun w => resume_keywords.contains w)).length : ℚ)
    / (job_keywords.length : ℚ)

/-- The `word_overlap` local. -/
def wordOverlapOf (resume job_desc : String) : ℚ :=
  let resume_words := (splitWords resume).dedup
  let job_words := (splitWords job_desc).dedup
  if job_words.isEmpty then 0
  else ((job_words.filter (fun w => resume_words.contains w)).length : ℚ)
    / (job_words.length : ℚ)

end ResumeAnalyzer

/-! # Theorems -/

/-! ### Word-boundary search vs standalone occurrence -/

theorem matchAt_lit_iff (ts : List Char) : ∀ u : List Char,
    matchAt (ts.map .lit) u = true ↔ u.take ts.length = ts := by
  induction ts with
  | nil => intro u; simp [matchAt]
  | cons a as ih =>
    intro u
    cases u with
    | nil => simp [matchAt]
    | cons c cs =>
      simp [matchAt, pmatch, Bool.and_eq_true, beq_iff_eq, ih, List.cons.injEq]
      intro _
      exact eq_comm

theorem sliceEq_false_of_ne {ts s : List Char} {i : Nat}
    (hm : ¬ (s.drop i).take ts.length = ts) : sliceEq ts s i = false := by
  simp [sliceEq]
  exact hm

theorem wordHit_eq_stdHit (a : Char) (as s : List Char) (i : Nat)
    (h1 : isWordChar a = true)
    (h2 : isWordChar ((a :: as).getLast (by simp)) = true) :
    wordHit ((a :: as).map .lit) s i = stdHit (a :: as) s i := by
  by_cases hm : (s.drop i).take (a :: as).length = (a :: as)
  · have hsplit : s.drop i = (a :: as) ++ s.drop (i + (a :: as).length) := by
      conv_lhs => rw [← List.take_append_drop (a :: as).length (s.drop i)]
      rw [hm, List.drop_drop, Nat.add_comm]
    have hgj : ∀ j, j < (a :: as).length → s[i+j]? = (a :: as)[j]? := by
      intro j hj
      have h4 : (s.drop i)[j]? = s[i+j]? := List.getElem?_drop s i j
      rw [← h4, hsplit, List.getElem?_append]
      rw [if_pos hj]
    have hAt_i : wordAt s i = true := by
      have h5 : s[i]? = some a := by simpa using hgj 0 (by simp)
      simp [wordAt, h5, h1]
    have hAt_last : wordAt s (i + as.length) = true := by
      have h3 : as.length < (a :: as).length := by simp
      have h6 : s[i + as.length]? = some ((a :: as).getLast (by simp)) := by
        rw [hgj as.length h3, List.getElem?_eq_getElem h3]
        congr 1
        rw [List.getLast_eq_getElem]
        simp
      simp [wordAt, h6, h2]
    have hmt : matchAt ((a :: as).map .lit) (s.drop i) = true :=
      (matchAt_lit_iff _ _).mpr hm
    have hse : sliceEq (a :: as) s i = true := by
      simp only [sliceEq, beq_iff_eq]
      exact hm
    have hidx : i + (a :: as).length - 1 = i + as.length := by
      simp only [List.length_cons]
      omega
    have hpos : decide (0 < i + (a :: as).length) = true := by simp
    simp only [wordHit, stdHit, boundary, List.length_map, hmt, hse, hidx, hpos,
      hAt_i, hAt_last, Bool.true_and, Bool.and_true]
    cases hx : (decide (0 < i) && wordAt s (i - 1)) <;>
      cases hy : wordAt s (i + (a :: as).length) <;> rfl
  · have hA : matchAt ((a :: as).map .lit) (s.drop i) = false := by
      rw [← Bool.not_eq_true, matchAt_lit_iff]
      exact hm
    have hB : sliceEq (a :: as) s i = false := sliceEq_false_of_ne hm
    simp only [wordHit, stdHit, hA, hB, Bool.and_false, Bool.false_and]

theorem wordSearch_eq_occursStandalone (a : Char) (as s : List Char)
    (h1 : isWordChar a = true)
    (h2 : isWordChar ((a :: as).getLast (by simp)) = true) :
    wordSearch ((a :: as).map .lit) s = occursStandalone (a :: as) s := by
  unfold wordSearch occursStandalone
  congr 1
  funext i
  exact wordHit_eq_stdHit a as s i h1 h2

theorem getLastD_cons_eq_getLast (a : Char) (as : List Char) :
    (a :: as).getLastD a = (a :: as).getLast (by simp) := by
  simp [List.getLastD_eq_getLast?, List.getLast?_eq_getLast]

/-- `wordEnds` packaged form of the search/occurrence equivalence. -/
theorem wordSearch_toLower_eq (t : String) (hw : wordEnds t = true) (s : List Char) :
    wordSearch ((lowerData t).map PatElem.lit) s
      = occursStandalone (lowerData t) s := by
  unfold wordEnds at hw
  cases h : lowerData t with
  | nil => rw [h] at hw; simp at hw
  | cons a as =>
    rw [h] at hw
    simp only [Bool.and_eq_true] at hw
    apply wordSearch_eq_occursStandalone
    · exact hw.1
    · have h2 := hw.2
      rwa [getLastD_cons_eq_getLast] at h2

/-! ### Skill-term matching, function level -/

theorem xFound_eq_std (sk text : String) (hw : wordEnds sk = true) :
    InfoExtractor.xFound sk text = stdOccursCI sk text := by
  unfold InfoExtractor.xFound stdOccursCI
  exact wordSearch_toLower_eq sk hw (lowerData text)

/-- For every stored entry of `ResumeAnalyzer.extract_skills` whose cleaned
label starts and ends with word characters, the compiled pattern is the
literal pattern of the lowercased cleaned label.  (The two entries this
excludes are `C\+\+`/`C#`-style punctuation-ended terms and `.NET`, whose
pattern keeps a wildcard.) -/
theorem rp_parsePat_eq : ∀ f ∈ ResumeAnalyzer.allEntries,
    wordEnds (cleanSkill f) = true →
    parsePat (lowerData f) = (lowerData (cleanSkill f)).map PatElem.lit := by
  decide

theorem rpFound_eq_std (f text : String) (hf : f ∈ ResumeAnalyzer.allEntries)
    (hw : wordEnds (cleanSkill f) = true) :
    ResumeAnalyzer.rpFound f text = stdOccursCI (cleanSkill f) text := by
  unfold ResumeAnalyzer.rpFound stdOccursCI
  rw [rp_parsePat_eq f hf hw]
  exact wordSearch_toLower_eq (cleanSkill f) hw (lowerData text)

/-! ### Claim C9 -/

/-- C9: for every input text, every label of the combined technical list
(`all_technical` of `extract_skills_advanced`, `'all'` of
`extract_skills`) belongs to at least one technical category list, and no
category list (nor the combined list) contains duplicate labels. -/
theorem c9_skillset_invariant (text : String) :
    (((InfoExtractor.extract_skills_advanced text).all_technical).all (fun l =>
        ((InfoExtractor.extract_skills_advanced text).programming_languages).contains l
        || ((InfoExtractor.extract_skills_advanced text).frameworks_libraries).contains l
        || ((InfoExtractor.extract_skills_advanced text).databases).contains l
        || ((InfoExtractor.extract_skills_advanced text).cloud_platforms).contains l
        || ((InfoExtractor.extract_skills_advanced text).tools).contains l) = true)
    ∧ ((InfoExtractor.extract_skills_advanced text).programming_languages).Nodup
    ∧ ((InfoExtractor.extract_skills_advanced text).frameworks_libraries).Nodup
    ∧ ((InfoExtractor.extract_skills_advanced text).databases).Nodup
    ∧ ((InfoExtractor.extract_skills_advanced text).cloud_platforms).Nodup
    ∧ ((InfoExtractor.extract_skills_advanced text).tools).Nodup
    ∧ ((InfoExtractor.extract_skills_advanced text).soft_skills).Nodup
    ∧ ((InfoExtractor.extract_skills_advanced text).all_technical).Nodup
    ∧ (((ResumeAnalyzer.extract_skills text).all).all (fun l =>
        ((ResumeAnalyzer.extract_skills text).languages).contains l
        || ((ResumeAnalyzer.extract_skills text).frameworks).contains l
        || ((ResumeAnalyzer.extract_skills text).databases).contains l
        || ((ResumeAnalyzer.extract_skills text).cloud).contains l
        || ((ResumeAnalyzer.extract_skills text).tools).contains l) = true)
    ∧ ((ResumeAnalyzer.extract_skills text).languages).Nodup
    ∧ ((ResumeAnalyzer.extract_skills text).frameworks).Nodup
    ∧ ((ResumeAnalyzer.extract_skills text).databases).Nodup
    ∧ ((ResumeAnalyzer.extract_skills text).cloud).Nodup
    ∧ ((ResumeAnalyzer.extract_skills text).tools).Nodup
    ∧ ((ResumeAnalyzer.extract_skills text).all).Nodup := by
  refine ⟨?_, List.nodup_dedup _, List.nodup_dedup _, List.nodup_dedup _,
    List.nodup_dedup _, List.nodup_dedup _, List.nodup_dedup _, List.nodup_dedup _,
    ?_, List.nodup_dedup _, List.nodup_dedup _, List.nodup_dedup _,
    List.nodup_dedup _, List.nodup_dedup _, List.nodup_dedup _⟩
  · rw [List.all_eq_true]
    intro l hl
    simp only [InfoExtractor.extract_skills_advanced] at hl ⊢
    have hmem := List.mem_dedup.mp hl
    simp only [List.mem_append] at hmem
    rcases hmem with ((((h | h) | h) | h) | h) <;>
      simp [List.mem_dedup, h]
  · rw [List.all_eq_true]
    intro l hl
    simp only [ResumeAnalyzer.extract_skills] at hl ⊢
    have hmem := List.mem_dedup.mp hl
    simp only [List.mem_append] at hmem
    rcases hmem with ((((h | h) | h) | h) | h) <;>
      simp [List.mem_dedup, h]

/-! ### Claim C1 -/

/-- C1 (counterexample): "C++" is listed in the dictionaries of both
extraction functions and occurs as a standalone whole word in
"Skilled in C++", yet neither combined technical list contains it: the
trailing `\b` of the compiled pattern can never match after a non-word
character such as `+`. -/
theorem c1_counterexample :
    "C++" ∈ InfoExtractor.prog_languages
    ∧ "C\\+\\+" ∈ ResumeAnalyzer.languages
    ∧ cleanSkill "C\\+\\+" = "C++"
    ∧ stdOccursCI "C++" "Skilled in C++" = true
    ∧ "C++" ∉ (InfoExtractor.extract_skills_advanced "Skilled in C++").all_technical
    ∧ "C++" ∉ (ResumeAnalyzer.extract_skills "Skilled in C++").all := by
  decide

/-- C1 (amended): for every dictionary term whose (cleaned) label begins and
ends with a word character, membership in the combined technical list is
equivalent to a standalone whole-word occurrence in the text — in
particular such a term occurring only inside a longer word is not
extracted.  Terms whose label starts or ends with a non-word character
(`C++`, `C#`, `.NET`) are excluded: their compiled `\b`-patterns cannot
match a standalone occurrence. -/
theorem c1_amended (T f text : String) :
    (T ∈ InfoExtractor.techEntries → wordEnds T = true →
      (T ∈ (InfoExtractor.extract_skills_advanced text).all_technical
        ↔ stdOccursCI T text = true))
    ∧ (f ∈ ResumeAnalyzer.allEntries → wordEnds (cleanSkill f) = true →
      (cleanSkill f ∈ (ResumeAnalyzer.extract_skills text).all
        ↔ stdOccursCI (cleanSkill f) text = true)) := by
  constructor
  · intro hT hw
    constructor
    · intro hmem
      rw [← xFound_eq_std T text hw]
      simp only [InfoExtractor.extract_skills_advanced, InfoExtractor.catRaw] at hmem
      have hmem2 := List.mem_dedup.mp hmem
      simp only [List.mem_append, List.mem_filter] at hmem2
      tauto
    · intro hstd
      have hf : InfoExtractor.xFound T text = true := by
        rw [xFound_eq_std T text hw]
        exact hstd
      simp only [InfoExtractor.techEntries, List.mem_append] at hT
      simp only [InfoExtractor.extract_skills_advanced, InfoExtractor.catRaw,
        List.mem_dedup, List.mem_append, List.mem_filter]
      tauto
  · intro hfm hw
    constructor
    · intro hmem
      simp only [ResumeAnalyzer.extract_skills, ResumeAnalyzer.catRaw] at hmem
      have hmem2 := List.mem_dedup.mp hmem
      simp only [List.mem_append, List.mem_map, List.mem_filter] at hmem2
      have key : ∃ g, (g ∈ ResumeAnalyzer.allEntries
          ∧ ResumeAnalyzer.rpFound g text = true) ∧ cleanSkill g = cleanSkill f := by
        rcases hmem2 with (((⟨g, ⟨hg1, hg2⟩, hg3⟩ | ⟨g, ⟨hg1, hg2⟩, hg3⟩)
            | ⟨g, ⟨hg1, hg2⟩, hg3⟩) | ⟨g, ⟨hg1, hg2⟩, hg3⟩) | ⟨g, ⟨hg1, hg2⟩, hg3⟩ <;>
          exact ⟨g, ⟨by simp [ResumeAnalyzer.allEntries, List.mem_append, hg1], hg2⟩, hg3⟩
      obtain ⟨g, ⟨hg, hgf⟩, hgc⟩ := key
      have hwg : wordEnds (cleanSkill g) = true := by rw [hgc]; exact hw
      rw [← hgc]
      rw [← rpFound_eq_std g text hg hwg]
      exact hgf
    · intro hstd
      have hf : ResumeAnalyzer.rpFound f text = true := by
        rw [rpFound_eq_std f text hfm hw]
        exact hstd
      simp only [ResumeAnalyzer.allEntries, List.mem_append] at hfm
      simp only [ResumeAnalyzer.extract_skills, ResumeAnalyzer.catRaw,
        List.mem_dedup, List.mem_append, List.mem_map, List.mem_filter]
      rcases hfm with (((h | h) | h) | h) | h
      · exact Or.inl (Or.inl (Or.inl (Or.inl ⟨f, ⟨h, hf⟩, rfl⟩)))
      · exact Or.inl (Or.inl (Or.inl (Or.inr ⟨f, ⟨h, hf⟩, rfl⟩)))
      · exact Or.inl (Or.inl (Or.inr ⟨f, ⟨h, hf⟩, rfl⟩))
      · exact Or.inl (Or.inr ⟨f, ⟨h, hf⟩, rfl⟩)
      · exact Or.inr ⟨f, ⟨h, hf⟩, rfl⟩

/-- C1 (witness): both parts of the amended claim applied to the term
"Python" and a text containing it standalone. -/
theorem c1_amended_witness :
    ("Python" ∈ (InfoExtractor.extract_skills_advanced "We use Python here").all_technical
      ↔ stdOccursCI "Python" "We use Python here" = true)
    ∧ (cleanSkill "Python" ∈ (ResumeAnalyzer.extract_skills "We use Python here").all
      ↔ stdOccursCI (cleanSkill "Python") "We use Python here" = true) :=
  ⟨(c1_amended "Python" "Python" "We use Python here").1 (by decide) (by decide),
   (c1_amended "Python" "Python" "We use Python here").2 (by decide) (by decide)⟩

/-! ### Claim C8: every phone match carries at least 10 digits -/

theorem ccMatch_digit : ccMatch .digit = Char.isDigit := by
  funext c
  rfl

theorem take_digit_count (s : List Char) (k : Nat)
    (hk : k ≤ (s.takeWhile Char.isDigit).length) :
    ((s.take k).filter Char.isDigit).length = k := by
  have h1 : s.take k = (s.takeWhile Char.isDigit).take k := by
    conv_lhs => rw [← List.takeWhile_append_dropWhile (p := Char.isDigit) (l := s)]
    rw [List.take_append_of_le_length hk]
  rw [h1, List.filter_eq_self.mpr]
  · simp [List.length_take]
    omega
  · intro a ha
    exact List.mem_takeWhile_imp (List.mem_of_mem_take ha)

theorem consume_spec (e : RElem) (s : List Char) {r : List Char}
    (hr : r ∈ consume e s) :
    ∃ k, k ≤ s.length ∧ r = s.drop k
      ∧ dmin e ≤ ((s.take k).filter Char.isDigit).length := by
  have hTW : ∀ cc : CC, ((s.takeWhile (ccMatch cc)).length) ≤ s.length :=
    fun cc => (List.takeWhile_sublist (ccMatch cc)).length_le
  cases e with
  | one cc =>
    cases s with
    | nil => simp [consume] at hr
    | cons c cs =>
      by_cases hc : ccMatch cc c = true
      · simp [consume, hc] at hr
        refine ⟨1, by simp, by simp [hr], ?_⟩
        cases cc <;> simp [dmin]
        · rw [ccMatch_digit] at hc
          simp [List.take, List.filter, hc]
      · simp [consume, hc] at hr
  | opt cc =>
    cases s with
    | nil =>
      simp [consume] at hr
      exact ⟨0, by simp, by simp [hr], by cases cc <;> simp [dmin]⟩
    | cons c cs =>
      by_cases hc : ccMatch cc c = true
      · simp [consume, hc] at hr
        rcases hr with hr | hr
        · exact ⟨1, by simp, by simp [hr], by cases cc <;> simp [dmin]⟩
        · exact ⟨0, by simp, by simp [hr], by cases cc <;> simp [dmin]⟩
      · simp [consume, hc] at hr
        exact ⟨0, by simp, by simp [hr], by cases cc <;> simp [dmin]⟩
  | plus cc =>
    simp only [consume, List.mem_map, List.mem_range] at hr
    obtain ⟨kk, hkk, hrr⟩ := hr
    set m := (s.takeWhile (ccMatch cc)).length with hm
    refine ⟨m - kk, le_trans (Nat.sub_le _ _) (hTW cc), hrr.symm, ?_⟩
    cases cc <;> simp [dmin]
    · rw [ccMatch_digit] at hm
      have : ((s.take (m - kk)).filter Char.isDigit).length = m - kk :=
        take_digit_count s (m - kk) (by omega)
      omega
  | rep cc n =>
    by_cases hn : n ≤ (s.takeWhile (ccMatch cc)).length
    · simp [consume, hn] at hr
      refine ⟨n, le_trans hn (hTW cc), hr, ?_⟩
      cases cc <;> simp [dmin]
      · rw [ccMatch_digit] at hn
        rw [take_digit_count s n hn]
    · simp [consume, hn] at hr
  | repGE cc n =>
    set m := (s.takeWhile (ccMatch cc)).length with hm
    by_cases hn : m < n
    · simp [consume, ← hm, hn] at hr
    · simp [consume, ← hm, hn, List.mem_map, List.mem_range] at hr
      obtain ⟨kk, hkk, hrr⟩ := hr
      refine ⟨m - kk, le_trans (Nat.sub_le _ _) (hTW cc), hrr.symm, ?_⟩
      cases cc <;> simp [dmin]
      · rw [ccMatch_digit] at hm
        have : ((s.take (m - kk)).filter Char.isDigit).length = m - kk :=
          take_digit_count s (m - kk) (by omega)
        omega
  | star cc =>
    simp only [consume, List.mem_map, List.mem_range] at hr
    obtain ⟨kk, hkk, hrr⟩ := hr
    exact ⟨(s.takeWhile (ccMatch cc)).length - kk,
      le_trans (Nat.sub_le _ _) (hTW cc), hrr.symm, by cases cc <;> simp [dmin]⟩

theorem runSeq_spec (es : List RElem) : ∀ (s r : List Char), r ∈ runSeq es s →
    ∃ k, k ≤ s.length ∧ r = s.drop k
      ∧ dminSeq es ≤ ((s.take k).filter Char.isDigit).length := by
  induction es with
  | nil =>
    intro s r hr
    simp [runSeq] at hr
    exact ⟨0, by simp, by simp [hr], by simp [dminSeq]⟩
  | cons e es ih =>
    intro s r hr
    simp only [runSeq, List.mem_flatMap] at hr
    obtain ⟨m, hm, hrm⟩ := hr
    obtain ⟨k1, hk1, hmk, hd1⟩ := consume_spec e s hm
    obtain ⟨k2, hk2, hrk, hd2⟩ := ih m r hrm
    subst hmk
    refine ⟨k1 + k2, ?_, by rw [hrk, List.drop_drop, Nat.add_comm], ?_⟩
    · simp [List.length_drop] at hk2
      omega
    · rw [List.take_add, List.filter_append, List.length_append]
      have : dminSeq (e :: es) = dmin e + dminSeq es := by
        simp [dminSeq]
      omega

theorem head?_mem {α : Type} {l : List α} {a : α} (h : l.head? = some a) : a ∈ l := by
  cases l with
  | nil => simp at h
  | cons x xs =>
    simp at h
    simp [h]

/-- Every successful (unanchored) search with a pattern whose alternatives
all require at least `n` digit characters yields a match containing at
least `n` digits. -/
theorem searchPatB_digits (alts : List (List RElem)) (s : List Char)
    (n : Nat) (hall : ∀ es ∈ alts, n ≤ dminSeq es) {p : Nat × Nat}
    (h : searchPatB alts s false false = some p) :
    n ≤ (matchDigits s p).length := by
  unfold searchPatB at h
  obtain ⟨i, hi, hfi⟩ := List.exists_of_findSome?_eq_some h
  simp only [Bool.false_and, Bool.not_false, Bool.true_or, List.filter_true,
    reduceIte] at hfi
  rcases hh : (matchChoice alts (s.drop i)).head? with _ | r
  · rw [hh] at hfi
    simp at hfi
  · rw [hh] at hfi
    rw [if_neg Bool.false_ne_true] at hfi
    simp only [Option.some.injEq] at hfi
    have hrmem : r ∈ matchChoice alts (s.drop i) := head?_mem hh
    simp only [matchChoice, List.mem_flatMap] at hrmem
    obtain ⟨es, hes, hres⟩ := hrmem
    obtain ⟨k, hk, hrk, hd⟩ := runSeq_spec es (s.drop i) r hres
    have hilen : i ≤ s.length := by
      simp [List.mem_range] at hi
      omega
    have hlen2 : p.2 = k := by
      rw [← hfi]
      simp only
      rw [hrk]
      simp [List.length_drop] at hk ⊢
      omega
    have hp1 : p.1 = i := by rw [← hfi]
    rw [matchDigits, hp1, hlen2]
    exact le_trans (hall es hes) hd

/-- The phone loop, when every pattern alternative requires at least 10
digits, degenerates to formatting the digits of the first match. -/
theorem rpPhoneLoop_eq (pats : List (List (List RElem)))
    (hp : ∀ alts ∈ pats, ∀ es ∈ alts, 10 ≤ dminSeq es) (s : List Char) :
    rpPhoneLoop pats s
      = (pats.findSome? (fun alts =>
          (searchPatB alts s false false).map (matchDigits s))).map formatPhone := by
  induction pats with
  | nil => simp [rpPhoneLoop]
  | cons alts rest ih =>
    have hhead := hp alts (by simp)
    have hrest : ∀ a ∈ rest, ∀ es ∈ a, 10 ≤ dminSeq es := by
      intro a ha
      exact hp a (by simp [ha])
    rcases hs : searchPatB alts s false false with _ | p
    · simp only [rpPhoneLoop, hs, List.findSome?_cons, Option.map_none']
      exact ih hrest
    · have hd := searchPatB_digits alts s 10 hhead hs
      simp only [rpPhoneLoop, hs, List.findSome?_cons, Option.map_some']
      rw [if_pos hd]

theorem take3Digits_len {t g r : List Char}
    (h : InfoExtractor.take3Digits t = some (g, r)) : g.length = 3 := by
  unfold InfoExtractor.take3Digits at h
  split at h
  · split at h
    · simp only [Option.some.injEq, Prod.mk.injEq] at h
      rw [← h.1]
      rfl
    · simp at h
  · simp at h

theorem take4Digits_len {t g r : List Char}
    (h : InfoExtractor.take4Digits t = some (g, r)) : g.length = 4 := by
  unfold InfoExtractor.take4Digits at h
  split at h
  · split at h
    · simp only [Option.some.injEq, Prod.mk.injEq] at h
      rw [← h.1]
      rfl
    · simp at h
  · simp at h

theorem xP1Core_len {t ds : List Char} (h : InfoExtractor.xP1Core t = some ds) :
    ds.length = 10 := by
  simp only [InfoExtractor.xP1Core, Option.bind_eq_some, Option.map_eq_some'] at h
  obtain ⟨⟨g2, t2⟩, h2, ⟨g3, t5⟩, h3, ⟨g4, r⟩, h4, hds⟩ := h
  rw [← hds]
  simp [take3Digits_len h2, take3Digits_len h3, take4Digits_len h4]

theorem xP1Prefix_len {t ds : List Char}
    (h : InfoExtractor.xP1Prefix t = some ds) : 10 ≤ ds.length := by
  unfold InfoExtractor.xP1Prefix at h
  split at h
  · exact le_of_eq (xP1Core_len h).symm
  · split at h
    · exact le_of_eq (xP1Core_len h).symm
    · simp only [Option.map_eq_some'] at h
      obtain ⟨ds3, h3, h4⟩ := h
      rw [← h4]
      simp [xP1Core_len h3]
  · simp only [Option.map_eq_some'] at h
    obtain ⟨ds3, h3, h4⟩ := h
    rw [← h4]
    simp [xP1Core_len h3]
  · simp at h

theorem xP1At_len {t ds : List Char} (h : InfoExtractor.xP1At t = some ds) :
    10 ≤ ds.length := by
  unfold InfoExtractor.xP1At at h
  split at h
  · rename_i ds2 hpre
    simp only [Option.some.injEq] at h
    rw [← h]
    exact xP1Prefix_len hpre
  · exact le_of_eq (xP1Core_len h).symm

theorem xPSepAt_len {sep : Char} {t ds : List Char}
    (h : InfoExtractor.xPSepAt sep t = some ds) : 10 ≤ ds.length := by
  simp only [InfoExtractor.xPSepAt, Option.bind_eq_some, Option.map_eq_some'] at h
  obtain ⟨⟨g1, t1⟩, h1, t2, hs1, ⟨g2, t3⟩, h2, t4, hs2, ⟨g3, r⟩, h3, hds⟩ := h
  rw [← hds]
  simp [take3Digits_len h1, take3Digits_len h2, take4Digits_len h3]

theorem xPhoneMatchers_len : ∀ m ∈ InfoExtractor.xPhoneMatchers,
    ∀ (t ds : List Char), m t = some ds → 10 ≤ ds.length := by
  intro m hm
  simp only [InfoExtractor.xPhoneMatchers, List.mem_cons, List.mem_singleton,
    List.not_mem_nil, or_false] at hm
  rcases hm with h | h | h <;> subst h <;> intro t ds hds
  · exact xP1At_len hds
  · exact xPSepAt_len hds
  · exact xPSepAt_len hds

theorem xSearch_len {m : List Char → Option (List Char)} {s ds : List Char}
    (hm : ∀ (t ds : List Char), m t = some ds → 10 ≤ ds.length)
    (h : InfoExtractor.xSearch m s = some ds) : 10 ≤ ds.length := by
  unfold InfoExtractor.xSearch at h
  obtain ⟨i, -, hi⟩ := List.exists_of_findSome?_eq_some h
  exact hm _ _ hi

/-- The extractor's phone loop, its per-pattern guard never rejecting,
degenerates to formatting the digits of the first match. -/
theorem xPhoneLoop_eq (ms : List (List Char → Option (List Char)))
    (h : ∀ m ∈ ms, ∀ (t ds : List Char), m t = some ds → 10 ≤ ds.length)
    (s : List Char) :
    InfoExtractor.xPhoneLoop ms s
      = (ms.findSome? (fun m => InfoExtractor.xSearch m s)).map formatPhone := by
  induction ms with
  | nil => simp [InfoExtractor.xPhoneLoop]
  | cons m rest ih =>
    have hhead := h m (by simp)
    have hrest : ∀ m2 ∈ rest, ∀ (t ds : List Char), m2 t = some ds → 10 ≤ ds.length :=
      fun m2 hm2 => h m2 (by simp [hm2])
    rcases hs : InfoExtractor.xSearch m s with _ | ds
    · simp only [InfoExtractor.xPhoneLoop, hs, List.findSome?_cons]
      exact ih hrest
    · have hd := xSearch_len hhead hs
      simp only [InfoExtractor.xPhoneLoop, hs, List.findSome?_cons, Option.map_some']
      rw [if_pos hd]

/-- C8: contact extraction is total in both implementations, and each
phone field is exactly the first phone-pattern match formatted as
`(XXX) XXX-XXXX` from the digits of the match —
`ResumeAnalyzer.extract_contact` filters the digit characters of
`group(0)`, `extract_contact_info` joins the all-digit groups of the first
`findall` tuple — which always number at least 10, so the
`len(digits) >= 10` guard in either loop never rejects a match; when no
pattern matches, the field is present and `None`. -/
theorem c8_phone_normalization (text : String) :
    ((rpPhoneSearch text.data).all (fun ds => decide (10 ≤ ds.length)) = true)
    ∧ ((ResumeAnalyzer.extract_contact text).lookup "phone"
        = some ((rpPhoneSearch text.data).map formatPhone))
    ∧ ((InfoExtractor.xPhoneSearch text.data).all
        (fun ds => decide (10 ≤ ds.length)) = true)
    ∧ ((InfoExtractor.extract_contact_info text).lookup "phone"
        = some ((InfoExtractor.xPhoneSearch text.data).map formatPhone)) := by
  have h10 : ∀ alts ∈ rpPhonePatterns, ∀ es ∈ alts, 10 ≤ dminSeq es := by decide
  have hloop : rpPhoneLoop rpPhonePatterns text.data
      = (rpPhoneSearch text.data).map formatPhone := by
    rw [rpPhoneLoop_eq rpPhonePatterns h10 text.data]
    rfl
  have hxloop : InfoExtractor.xPhoneLoop InfoExtractor.xPhoneMatchers text.data
      = (InfoExtractor.xPhoneSearch text.data).map formatPhone := by
    rw [xPhoneLoop_eq InfoExtractor.xPhoneMatchers xPhoneMatchers_len text.data]
    rfl
  refine ⟨?_, ?_, ?_, ?_⟩
  · rcases hs : rpPhoneSearch text.data with _ | ds
    · rfl
    · unfold rpPhoneSearch at hs
      obtain ⟨alts, halts, hsome⟩ := List.exists_of_findSome?_eq_some hs
      rcases hp : searchPatB alts text.data false false with _ | p
      · rw [hp] at hsome
        simp at hsome
      · rw [hp] at hsome
        simp only [Option.map_some', Option.some.injEq] at hsome
        have := searchPatB_digits alts text.data 10 (h10 alts halts) hp
        rw [hsome] at this
        simp [Option.all, this]
  · simp only [ResumeAnalyzer.extract_contact, hloop]
    rcases hs : rpPhoneSearch text.data with _ | ds <;> rfl
  · rcases hs : InfoExtractor.xPhoneSearch text.data with _ | ds
    · rfl
    · unfold InfoExtractor.xPhoneSearch at hs
      obtain ⟨m, hm, hsome⟩ := List.exists_of_findSome?_eq_some hs
      have := xSearch_len (xPhoneMatchers_len m hm) hsome
      simp [Option.all, this]
  · simp only [InfoExtractor.extract_contact_info, InfoExtractor.xPhone, hxloop]
    rcases hs : InfoExtractor.xPhoneSearch text.data with _ | ds <;> rfl

/-! ### Claim C10 -/

/-- C10: both contact extractors return a mapping in which the keys
`email`, `phone`, `linkedin` and `github` are always present (each bound to
an optional string), whatever the input text. -/
theorem c10_contact_keys (text : String) :
    (((ResumeAnalyzer.extract_contact text).lookup "email").isSome = true)
    ∧ (((ResumeAnalyzer.extract_contact text).lookup "phone").isSome = true)
    ∧ (((ResumeAnalyzer.extract_contact text).lookup "linkedin").isSome = true)
    ∧ (((ResumeAnalyzer.extract_contact text).lookup "github").isSome = true)
    ∧ (((InfoExtractor.extract_contact_info text).lookup "email").isSome = true)
    ∧ (((InfoExtractor.extract_contact_info text).lookup "phone").isSome = true)
    ∧ (((InfoExtractor.extract_contact_info text).lookup "linkedin").isSome = true)
    ∧ (((InfoExtractor.extract_contact_info text).lookup "github").isSome = true) := by
  unfold ResumeAnalyzer.extract_contact InfoExtractor.extract_contact_info
  rcases rpPhoneLoop rpPhonePatterns text.data with _ | p <;>
    exact ⟨rfl, rfl, rfl, rfl, rfl, rfl, rfl, rfl⟩

/-! ### Rounding and ratio bounds -/

theorem round1_le {x y : ℚ} (h : x ≤ y) : round1 x ≤ round1 y := by
  unfold round1
  have h2 : round (10 * x) ≤ round (10 * y) := by
    rw [round_eq, round_eq]
    exact Int.floor_le_floor (by linarith)
  have h3 : ((round (10 * x) : ℤ) : ℚ) ≤ ((round (10 * y) : ℤ) : ℚ) := by
    exact_mod_cast h2
  linarith

theorem round1_nonneg {x : ℚ} (h : 0 ≤ x) : 0 ≤ round1 x := by
  have := round1_le h
  simpa [round1] using this

theorem round1_hundred : round1 100 = 100 := by
  norm_num [round1, round_eq]

theorem round1_ninety : round1 90 = 90 := by
  norm_num [round1, round_eq]

theorem ratio01 (a b : Nat) (hab : a ≤ b) :
    0 ≤ (a : ℚ) / (b : ℚ) ∧ (a : ℚ) / (b : ℚ) ≤ 1 := by
  rcases Nat.eq_zero_or_pos b with hb | hb
  · subst hb
    have : a = 0 := Nat.le_zero.mp hab
    subst this
    norm_num
  · have hbq : (0 : ℚ) < (b : ℚ) := by exact_mod_cast hb
    exact ⟨div_nonneg (by positivity) hbq.le,
      (div_le_one hbq).mpr (by exact_mod_cast hab)⟩

/-! ### The score fields as functions of the sub-scores -/

theorem optimize_score_fields (r j : String) (kw : ℚ) :
    (Optimize.calculate_match_score r j kw).overall_score
      = round1 ((Optimize.skillMatchOf r j * (4/10) + kw * (3/10)
          + Optimize.experienceMatchOf r j * (2/10)
          + Optimize.educationMatchOf r j * (1/10)) * 100)
    ∧ (Optimize.calculate_match_score r j kw).skill_match_score
      = round1 (Optimize.skillMatchOf r j * 100)
    ∧ (Optimize.calculate_match_score r j kw).keyword_match_score
      = round1 (kw * 100)
    ∧ (Optimize.calculate_match_score r j kw).experience_match_score
      = round1 (Optimize.experienceMatchOf r j * 100)
    ∧ (Optimize.calculate_match_score r j kw).education_match_score
      = round1 (Optimize.educationMatchOf r j * 100) :=
  ⟨rfl, rfl, rfl, rfl, rfl⟩

theorem analyzer_score_fields (r j : String) :
    (ResumeAnalyzer.calculate_match_score r j).overall_score
      = round1 ((ResumeAnalyzer.skillCoverageOf r j * (5/10)
          + ResumeAnalyzer.keywordCoverageOf r j * (3/10)
          + ResumeAnalyzer.wordOverlapOf r j * (2/10)) * 100)
    ∧ (ResumeAnalyzer.calculate_match_score r j).skill_match
      = round1 (ResumeAnalyzer.skillCoverageOf r j * 100)
    ∧ (ResumeAnalyzer.calculate_match_score r j).keyword_match
      = round1 (ResumeAnalyzer.keywordCoverageOf r j * 100)
    ∧ (ResumeAnalyzer.calculate_match_score r j).semantic_match
      = round1 (ResumeAnalyzer.wordOverlapOf r j * 100) :=
  ⟨rfl, rfl, rfl, rfl⟩

/-! ### Bounds of the sub-scores -/

theorem skillMatchOf_bounds (r j : String) :
    0 ≤ Optimize.skillMatchOf r j ∧ Optimize.skillMatchOf r j ≤ 1 := by
  unfold Optimize.skillMatchOf
  by_cases h : (Optimize.extract_skills j).isEmpty
  · simp [h]
  · simp only [h, if_false, Bool.false_eq_true]
    exact ratio01 _ _ (List.length_filter_le _ _)

theorem experienceMatchOf_bounds (r j : String) :
    0 ≤ Optimize.experienceMatchOf r j ∧ Optimize.experienceMatchOf r j ≤ 1 := by
  unfold Optimize.experienceMatchOf
  rcases Optimize.extract_experience_years r with _ | a <;>
    rcases Optimize.extract_experience_years j with _ | b
  · norm_num
  · norm_num
  · norm_num
  · show (0 ≤ (if a ≠ 0 ∧ b ≠ 0 then (if b ≤ a then (1:ℚ) else (a:ℚ)/(b:ℚ)) else 1/2))
      ∧ ((if a ≠ 0 ∧ b ≠ 0 then (if b ≤ a then (1:ℚ) else (a:ℚ)/(b:ℚ)) else 1/2) ≤ 1)
    by_cases hab : a ≠ 0 ∧ b ≠ 0
    · by_cases hba : b ≤ a
      · simp [hab, hba]
      · have hb := ratio01 a b (Nat.le_of_lt (Nat.lt_of_not_le hba))
        rw [if_pos hab, if_neg hba]
        exact hb
    · rw [if_neg hab]
      norm_num

theorem educationMatchOf_bounds (r j : String) :
    0 ≤ Optimize.educationMatchOf r j ∧ Optimize.educationMatchOf r j ≤ 1 := by
  unfold Optimize.educationMatchOf
  by_cases h : 0 < Optimize.eduCount j
  · simp only [h, if_true]
    constructor
    · apply le_min _ (by norm_num)
      positivity
    · exact min_le_right _ _
  · simp [h]

theorem skillCoverageOf_bounds (r j : String) :
    0 ≤ ResumeAnalyzer.skillCoverageOf r j ∧ ResumeAnalyzer.skillCoverageOf r j ≤ 1 := by
  unfold ResumeAnalyzer.skillCoverageOf
  by_cases h : ((ResumeAnalyzer.extract_skills j).all).isEmpty
  · simp [h]
  · simp only [h, if_false, Bool.false_eq_true]
    exact ratio01 _ _ (List.length_filter_le _ _)

theorem keywordCoverageOf_bounds (r j : String) :
    0 ≤ ResumeAnalyzer.keywordCoverageOf r j
      ∧ ResumeAnalyzer.keywordCoverageOf r j ≤ 1 := by
  unfold ResumeAnalyzer.keywordCoverageOf
  by_cases h : (ResumeAnalyzer.keywordsBasic j).isEmpty
  · simp [h]
  · simp only [h, if_false, Bool.false_eq_true]
    exact ratio01 _ _ (List.length_filter_le _ _)

theorem wordOverlapOf_bounds (r j : String) :
    0 ≤ ResumeAnalyzer.wordOverlapOf r j ∧ ResumeAnalyzer.wordOverlapOf r j ≤ 1 := by
  unfold ResumeAnalyzer.wordOverlapOf
  by_cases h : ((ResumeAnalyzer.splitWords j).dedup).isEmpty
  · simp [h]
  · simp only [h, if_false, Bool.false_eq_true]
    exact ratio01 _ _ (List.length_filter_le _ _)

/-! ### Claim C2 -/

/-- C2: the returned `overall_score` is the documented weighted sum
`0.4/0.3/0.2/0.1` of the four sub-scores (computed before rounding, each
field rounded to one decimal on the 0–100 scale), and the fallback path of
`ResumeAnalyzer` weighs `0.5/0.3/0.2` skill/keyword/word-overlap. -/
theorem c2_weighted_overall (r j : String) (kw : ℚ) :
    ((Optimize.calculate_match_score r j kw).overall_score
      = round1 ((Optimize.skillMatchOf r j * (4/10) + kw * (3/10)
          + Optimize.experienceMatchOf r j * (2/10)
          + Optimize.educationMatchOf r j * (1/10)) * 100)
    ∧ (Optimize.calculate_match_score r j kw).skill_match_score
      = round1 (Optimize.skillMatchOf r j * 100)
    ∧ (Optimize.calculate_match_score r j kw).keyword_match_score
      = round1 (kw * 100)
    ∧ (Optimize.calculate_match_score r j kw).experience_match_score
      = round1 (Optimize.experienceMatchOf r j * 100)
    ∧ (Optimize.calculate_match_score r j kw).education_match_score
      = round1 (Optimize.educationMatchOf r j * 100))
    ∧ ((ResumeAnalyzer.calculate_match_score r j).overall_score
      = round1 ((ResumeAnalyzer.skillCoverageOf r j * (5/10)
          + ResumeAnalyzer.keywordCoverageOf r j * (3/10)
          + ResumeAnalyzer.wordOverlapOf r j * (2/10)) * 100)
    ∧ (ResumeAnalyzer.calculate_match_score r j).skill_match
      = round1 (ResumeAnalyzer.skillCoverageOf r j * 100)
    ∧ (ResumeAnalyzer.calculate_match_score r j).keyword_match
      = round1 (ResumeAnalyzer.keywordCoverageOf r j * 100)
    ∧ (ResumeAnalyzer.calculate_match_score r j).semantic_match
      = round1 (ResumeAnalyzer.wordOverlapOf r j * 100)) :=
  ⟨optimize_score_fields r j kw, analyzer_score_fields r j⟩

/-! ### Claim C3 -/

/-- C3: for every pair of texts (empty strings included) and every TF-IDF
similarity value in `[0,1]`, the returned `overall_score` lies in
`[0,100]`; the embedded functions are total, so no exception can be
raised. -/
theorem c3_score_bounds (r j : String) (kw : ℚ) (h0 : 0 ≤ kw) (h1 : kw ≤ 1) :
    (0 ≤ (Optimize.calculate_match_score r j kw).overall_score
      ∧ (Optimize.calculate_match_score r j kw).overall_score ≤ 100)
    ∧ (0 ≤ (ResumeAnalyzer.calculate_match_score r j).overall_score
      ∧ (ResumeAnalyzer.calculate_match_score r j).overall_score ≤ 100) := by
  obtain ⟨ho, -, -, -, -⟩ := optimize_score_fields r j kw
  obtain ⟨ha, -, -, -⟩ := analyzer_score_fields r j
  obtain ⟨hs0, hs1⟩ := skillMatchOf_bounds r j
  obtain ⟨he0, he1⟩ := experienceMatchOf_bounds r j
  obtain ⟨hd0, hd1⟩ := educationMatchOf_bounds r j
  obtain ⟨hc0, hc1⟩ := skillCoverageOf_bounds r j
  obtain ⟨hk0, hk1⟩ := keywordCoverageOf_bounds r j
  obtain ⟨hw0, hw1⟩ := wordOverlapOf_bounds r j
  rw [ho, ha]
  refine ⟨⟨round1_nonneg (by nlinarith), ?_⟩, ⟨round1_nonneg (by nlinarith), ?_⟩⟩
  · calc round1 ((Optimize.skillMatchOf r j * (4/10) + kw * (3/10)
          + Optimize.experienceMatchOf r j * (2/10)
          + Optimize.educationMatchOf r j * (1/10)) * 100)
        ≤ round1 100 := round1_le (by nlinarith)
      _ = 100 := round1_hundred
  · calc round1 ((ResumeAnalyzer.skillCoverageOf r j * (5/10)
          + ResumeAnalyzer.keywordCoverageOf r j * (3/10)
          + ResumeAnalyzer.wordOverlapOf r j * (2/10)) * 100)
        ≤ round1 100 := round1_le (by nlinarith)
      _ = 100 := round1_hundred

/-- C3 (witness): the bounds at the empty texts with the failed-similarity
value 0. -/
theorem c3_score_bounds_witness :
    (0 ≤ (Optimize.calculate_match_score "" "" 0).overall_score
      ∧ (Optimize.calculate_match_score "" "" 0).overall_score ≤ 100)
    ∧ (0 ≤ (ResumeAnalyzer.calculate_match_score "" "").overall_score
      ∧ (ResumeAnalyzer.calculate_match_score "" "").overall_score ≤ 100) :=
  c3_score_bounds "" "" 0 (by norm_num) (by norm_num)

/-! ### Claim C4 -/

/-- C4: when the job text yields no skills, the skill sub-score is 0.0 in
both implementations; the division by the number of job skills is guarded
by the emptiness test, so it is never performed in that case. -/
theorem c4_empty_job_skills (r j : String) (kw : ℚ) :
    (Optimize.extract_skills j = [] →
      (Optimize.calculate_match_score r j kw).skill_match_score = 0)
    ∧ ((ResumeAnalyzer.extract_skills j).all = [] →
      (ResumeAnalyzer.calculate_match_score r j).skill_match = 0) := by
  constructor
  · intro h
    obtain ⟨-, hs, -, -, -⟩ := optimize_score_fields r j kw
    rw [hs]
    unfold Optimize.skillMatchOf
    rw [h]
    norm_num [round1, round_eq]
  · intro h
    obtain ⟨-, hs, -, -⟩ := analyzer_score_fields r j
    rw [hs]
    unfold ResumeAnalyzer.skillCoverageOf
    rw [h]
    norm_num [round1, round_eq]

/-- C4 (witness): the empty job text yields no skills in either
implementation, and the skill sub-scores are 0. -/
theorem c4_empty_job_skills_witness :
    (Optimize.extract_skills "" = []
      ∧ (ResumeAnalyzer.extract_skills "").all = [])
    ∧ ((Optimize.calculate_match_score "some text" "" 0).skill_match_score = 0
      ∧ (ResumeAnalyzer.calculate_match_score "some text" "").skill_match = 0) :=
  ⟨⟨by decide, by decide⟩,
   ⟨(c4_empty_job_skills "some text" "" 0).1 (by decide),
    (c4_empty_job_skills "some text" "" 0).2 (by decide)⟩⟩

/-! ### Claim C5 -/

/-- C5 (counterexample): a resume stating "0 years of experience" against a
job stating "4 years of experience": both texts state a numeric figure, the
claim demands `min(0/4, 1) = 0` (scaled to 0 on the 0–100 scale), but the
code's Python truthiness test `if resume_exp and job_exp` treats the
extracted 0 as undetermined and returns the neutral 50. -/
theorem c5_counterexample :
    Optimize.extract_experience_years "0 years of experience" = some 0
    ∧ Optimize.extract_experience_years "4 years of experience" = some 4
    ∧ (Optimize.calculate_match_score "0 years of experience"
        "4 years of experience" 0).experience_match_score = 50
    ∧ round1 (min ((0 : ℚ) / (4 : ℚ)) 1 * 100) = 0
    ∧ (50 : ℚ) ≠ 0 := by
  refine ⟨by decide, by decide, ?_, by norm_num [round1, round_eq], by norm_num⟩
  obtain ⟨-, -, -, he, -⟩ := optimize_score_fields
    "0 years of experience" "4 years of experience" 0
  rw [he]
  unfold Optimize.experienceMatchOf
  rw [show Optimize.extract_experience_years "0 years of experience"
      = some 0 from by decide,
    show Optimize.extract_experience_years "4 years of experience"
      = some 4 from by decide]
  norm_num [round1, round_eq]

/-- C5 (amended): when both texts yield a nonzero numeric
years-of-experience figure, the experience sub-score is
`min(resume_years/job_years, 1)` (scaled); when either figure is absent
or extracted as 0 (Python truthiness), the neutral default 0.5 (scaled to
50) is used. -/
theorem c5_amended (r j : String) (kw : ℚ) :
    (∀ a b : Nat, Optimize.extract_experience_years r = some a →
      Optimize.extract_experience_years j = some b → a ≠ 0 → b ≠ 0 →
      (Optimize.calculate_match_score r j kw).experience_match_score
        = round1 (min ((a : ℚ) / (b : ℚ)) 1 * 100))
    ∧ ((Optimize.extract_experience_years r = none
        ∨ Optimize.extract_experience_years j = none
        ∨ Optimize.extract_experience_years r = some 0
        ∨ Optimize.extract_experience_years j = some 0) →
      (Optimize.calculate_match_score r j kw).experience_match_score = 50) := by
  obtain ⟨-, -, -, he, -⟩ := optimize_score_fields r j kw
  constructor
  · intro a b ha hb ha0 hb0
    rw [he]
    unfold Optimize.experienceMatchOf
    rw [ha, hb]
    show round1 ((if a ≠ 0 ∧ b ≠ 0 then (if b ≤ a then (1:ℚ) else (a:ℚ)/(b:ℚ))
      else 1/2) * 100) = _
    rw [if_pos ⟨ha0, hb0⟩]
    have hbq : (0 : ℚ) < (b : ℚ) := by
      have : 0 < b := Nat.pos_of_ne_zero hb0
      exact_mod_cast this
    by_cases hba : b ≤ a
    · rw [if_pos hba, min_eq_right ((one_le_div hbq).mpr (by exact_mod_cast hba))]
    · rw [if_neg hba,
        min_eq_left ((div_le_one hbq).mpr (by exact_mod_cast Nat.le_of_not_le hba))]
  · intro hcase
    rw [he]
    unfold Optimize.experienceMatchOf
    have h12 : round1 ((1 : ℚ) / 2 * 100) = 50 := by norm_num [round1, round_eq]
    rcases hcase with h | h | h | h
    · rw [h]
      rcases Optimize.extract_experience_years j with _ | b <;> exact h12
    · rw [h]
      rcases Optimize.extract_experience_years r with _ | a <;> exact h12
    · rw [h]
      rcases Optimize.extract_experience_years j with _ | b
      · exact h12
      · show round1 ((if 0 ≠ 0 ∧ b ≠ 0 then (if b ≤ 0 then (1:ℚ) else (0:ℚ)/(b:ℚ))
          else 1/2) * 100) = 50
        rw [if_neg (by simp)]
        exact h12
    · rw [h]
      rcases Optimize.extract_experience_years r with _ | a
      · exact h12
      · show round1 ((if a ≠ 0 ∧ 0 ≠ 0 then (if 0 ≤ a then (1:ℚ) else (a:ℚ)/(0:ℚ))
          else 1/2) * 100) = 50
        rw [if_neg (by simp)]
        exact h12

/-- C5 (witness): both branches of the amended claim at concrete texts. -/
theorem c5_amended_witness :
    ((Optimize.calculate_match_score "3 years of experience"
        "4 years of experience" 0).experience_match_score
      = round1 (min ((3 : ℚ) / (4 : ℚ)) 1 * 100))
    ∧ (Optimize.calculate_match_score "no numbers here"
        "4 years of experience" 0).experience_match_score = 50 :=
  ⟨(c5_amended "3 years of experience" "4 years of experience" 0).1 3 4
      (by decide) (by decide) (by decide) (by decide),
   (c5_amended "no numbers here" "4 years of experience" 0).2
      (Or.inl (by decide))⟩

/-! ### Claim C6 -/

theorem filter_contains_self (l : List String) :
    l.filter (fun sk => l.contains sk) = l :=
  List.filter_eq_self.mpr (fun _ ha => List.elem_eq_true_of_mem ha)

theorem skillMatchOf_self (t : String) (h : Optimize.extract_skills t ≠ []) :
    Optimize.skillMatchOf t t = 1 := by
  unfold Optimize.skillMatchOf
  rw [if_neg (by simpa [List.isEmpty_iff] using h)]
  rw [filter_contains_self]
  have hlen : (0 : ℚ) < ((Optimize.extract_skills t).length : ℚ) := by
    have : 0 < (Optimize.extract_skills t).length := List.length_pos.mpr h
    exact_mod_cast this
  exact div_self (ne_of_gt hlen)

theorem educationMatchOf_self (t : String) : Optimize.educationMatchOf t t = 1 := by
  unfold Optimize.educationMatchOf
  by_cases h : 0 < Optimize.eduCount t
  · rw [if_pos h]
    have : ((Optimize.eduCount t : ℚ)) ≠ 0 := by
      have : 0 < (Optimize.eduCount t : ℚ) := by exact_mod_cast h
      exact ne_of_gt this
    rw [div_self this]
    exact min_self 1
  · rw [if_neg h]

theorem experienceMatchOf_self_ge (t : String) :
    1/2 ≤ Optimize.experienceMatchOf t t := by
  unfold Optimize.experienceMatchOf
  rcases Optimize.extract_experience_years t with _ | a
  · norm_num
  · show (1:ℚ)/2 ≤ (if a ≠ 0 ∧ a ≠ 0 then (if a ≤ a then (1:ℚ) else (a:ℚ)/(a:ℚ))
      else 1/2)
    by_cases ha : a ≠ 0 ∧ a ≠ 0
    · rw [if_pos ha, if_pos (le_refl a)]
      norm_num
    · rw [if_neg ha]

/-- C6 (counterexample): identical empty texts: no skill is extractable, so
`skill_match_score` is 0 rather than the claimed 100 (and the overall score
is far below 90; the TF-IDF call fails on empty input and yields 0). -/
theorem c6_counterexample :
    (Optimize.calculate_match_score "" "" 0).skill_match_score = 0
    ∧ ((0 : ℚ) ≠ 100)
    ∧ (Optimize.calculate_match_score "" "" 0).overall_score = 20 := by
  refine ⟨?_, by norm_num, ?_⟩
  · obtain ⟨-, hs, -, -, -⟩ := optimize_score_fields "" "" 0
    rw [hs]
    unfold Optimize.skillMatchOf
    rw [show Optimize.extract_skills "" = [] from by decide]
    norm_num [round1, round_eq]
  · obtain ⟨ho, -, -, -, -⟩ := optimize_score_fields "" "" 0
    rw [ho]
    unfold Optimize.skillMatchOf Optimize.experienceMatchOf Optimize.educationMatchOf
    rw [show Optimize.extract_skills "" = [] from by decide,
      show Optimize.extract_experience_years "" = none from by decide,
      show Optimize.eduCount "" = 0 from by decide]
    norm_num [round1, round_eq]

/-- C6 (amended): when the two texts are identical, at least one skill is
extracted from them, and the TF-IDF similarity of the identical pair is 1
(as cosine similarity of equal nonzero vectors), the skill sub-score is
100.0 and the overall score is at least 90. -/
theorem c6_amended (text : String) (kw : ℚ)
    (hne : Optimize.extract_skills text ≠ []) (hkw : kw = 1) :
    (Optimize.calculate_match_score text text kw).skill_match_score = 100
    ∧ 90 ≤ (Optimize.calculate_match_score text text kw).overall_score := by
  subst hkw
  obtain ⟨ho, hs, -, -, -⟩ := optimize_score_fields text text 1
  have hskill := skillMatchOf_self text hne
  have hedu := educationMatchOf_self text
  have hexp := experienceMatchOf_self_ge text
  have hexp1 := (experienceMatchOf_bounds text text).2
  constructor
  · rw [hs, hskill]
    norm_num [round1, round_eq]
  · rw [ho, hskill, hedu]
    calc (90 : ℚ) = round1 90 := round1_ninety.symm
      _ ≤ _ := round1_le (by nlinarith)

/-- C6 (witness): the amended claim at the one-word text "Python". -/
theorem c6_amended_witness :
    (Optimize.calculate_match_score "Python" "Python" 1).skill_match_score = 100
    ∧ 90 ≤ (Optimize.calculate_match_score "Python" "Python" 1).overall_score :=
  c6_amended "Python" 1 (by decide) rfl

/-! ### Claim C7 -/

theorem analyzer_ats_spec (text : String) :
    (ResumeAnalyzer._calculate_ats_score text).score
      = max ((100 : ℤ)
          - (if (ResumeAnalyzer.ats_sections.filter (fun sec =>
                containsSub sec.data (lowerData text))).length < 2 then 20 else 0)
          - (if (((ResumeAnalyzer.extract_contact text).lookup "email").join).isNone
              then 15 else 0)
          - (if (((ResumeAnalyzer.extract_contact text).lookup "phone").join).isNone
              then 10 else 0)
          - (if ResumeAnalyzer.problematic_chars.any (fun c => text.data.contains c)
              then 10 else 0)
          - (if (splitBy (fun c => c == '\n') text.data).length < 5 then 15 else 0)) 0
    ∧ 0 ≤ (ResumeAnalyzer._calculate_ats_score text).score
    ∧ (ResumeAnalyzer._calculate_ats_score text).score ≤ 100
    ∧ (ResumeAnalyzer._calculate_ats_score text).recommendations.length
        = (ResumeAnalyzer._calculate_ats_score text).issues.length := by
  refine ⟨?_, ?_, ?_, ?_⟩ <;>
  (simp only [ResumeAnalyzer._calculate_ats_score]
   split_ifs <;> decide)

theorem router_ats_spec (text : String) :
    (Optimize.calculate_ats_score text).1
      = max ((100 : ℤ)
          - (if (Optimize.standard_headers.filter (fun hd =>
                containsSub hd.data (lowerData text))).length < 3 then 20 else 0)
          - (if (searchPatB emailPatX text.data true true).isNone then 15 else 0)
          - (if (searchPatB phonePatRouter text.data true true).isNone then 10 else 0)
          - (if Optimize.router_problematic_chars.any (fun c => text.data.contains c)
              then 5 else 0)) 0
    ∧ 0 ≤ (Optimize.calculate_ats_score text).1
    ∧ (Optimize.calculate_ats_score text).1 ≤ 100
    ∧ (Optimize.calculate_ats_score text).2.length
        = (if (Optimize.standard_headers.filter (fun hd =>
              containsSub hd.data (lowerData text))).length < 3 then 1 else 0)
          + (if (searchPatB emailPatX text.data true true).isNone then 1 else 0)
          + (if (searchPatB phonePatRouter text.data true true).isNone then 1 else 0)
          + (if Optimize.router_problematic_chars.any (fun c => text.data.contains c)
              then 1 else 0) := by
  refine ⟨?_, ?_, ?_, ?_⟩ <;>
  (simp only [Optimize.calculate_ats_score]
   split_ifs <;> decide)

/-- C7 (amended): the ATS score starts at 100 and subtracts, in order, 20
when fewer than 2 of the six standard section names occur, 15 with no
email, 10 with no phone, 10 with a problematic glyph, and 15 when the text
has fewer than 5 lines — that is, fewer than 4 newline characters, not the
claimed "fewer than 5 line breaks"; the result is floored at 0 (and in fact
stays within [30,100], so ≥ 0 even with every penalty), and exactly one
recommendation is emitted per triggered deduction.  The router variant
(`calculate_ats_score`) subtracts 20/15/10/5 with a `< 3` header threshold
and has no line-break penalty at all. -/
theorem c7_amended (text : String) :
    ((ResumeAnalyzer._calculate_ats_score text).score
      = max ((100 : ℤ)
          - (if (ResumeAnalyzer.ats_sections.filter (fun sec =>
                containsSub sec.data (lowerData text))).length < 2 then 20 else 0)
          - (if (((ResumeAnalyzer.extract_contact text).lookup "email").join).isNone
              then 15 else 0)
          - (if (((ResumeAnalyzer.extract_contact text).lookup "phone").join).isNone
              then 10 else 0)
          - (if ResumeAnalyzer.problematic_chars.any (fun c => text.data.contains c)
              then 10 else 0)
          - (if (splitBy (fun c => c == '\n') text.data).length < 5 then 15 else 0)) 0
    ∧ 0 ≤ (ResumeAnalyzer._calculate_ats_score text).score
    ∧ (ResumeAnalyzer._calculate_ats_score text).score ≤ 100
    ∧ (ResumeAnalyzer._calculate_ats_score text).recommendations.length
        = (ResumeAnalyzer._calculate_ats_score text).issues.length)
    ∧ ((Optimize.calculate_ats_score text).1
      = max ((100 : ℤ)
          - (if (Optimize.standard_headers.filter (fun hd =>
                containsSub hd.data (lowerData text))).length < 3 then 20 else 0)
          - (if (searchPatB emailPatX text.data true true).isNone then 15 else 0)
          - (if (searchPatB phonePatRouter text.data true true).isNone then 10 else 0)
          - (if Optimize.router_problematic_chars.any (fun c => text.data.contains c)
              then 5 else 0)) 0
    ∧ 0 ≤ (Optimize.calculate_ats_score text).1
    ∧ (Optimize.calculate_ats_score text).1 ≤ 100
    ∧ (Optimize.calculate_ats_score text).2.length
        = (if (Optimize.standard_headers.filter (fun hd =>
              containsSub hd.data (lowerData text))).length < 3 then 1 else 0)
          + (if (searchPatB emailPatX text.data true true).isNone then 1 else 0)
          + (if (searchPatB phonePatRouter text.data true true).isNone then 1 else 0)
          + (if Optimize.router_problematic_chars.any (fun c => text.data.contains c)
              then 1 else 0)) :=
  ⟨analyzer_ats_spec text, router_ats_spec text⟩

/-- C7 (counterexample): a text with exactly 4 line breaks — "fewer than 5
line breaks" in the claim's words — still scores a full 100: the code's
check is `len(text.split('\n')) < 5`, which only triggers below 4 breaks,
so the claimed 15-point deduction does not happen. -/
theorem c7_counterexample :
    (("work skills a@b.co 5551234567\n\n\n\n".data.filter
        (fun c => c == '\n')).length = 4)
    ∧ (ResumeAnalyzer._calculate_ats_score
        "work skills a@b.co 5551234567\n\n\n\n").score = 100
    ∧ ((100 : ℤ) ≠ 100 - 15) := by
  refine ⟨by decide, by decide, by decide⟩
